import Mathlib

/-!
Shallow embedding of the student-management backend (Express/Mongoose
controllers under src/backend/controllers and the Mongoose schemas).
Documents are records, collections are lists, `findById` is `List.find?`
on the id field, and a Mongoose `save()` persists by mapping over the
collection; `save()` runs schema validation (the `min: 0` bounds on the
counter fields), while `updateMany` with `$inc` bypasses validators,
exactly as Mongoose defaults do.
-/

namespace SMS

/-- Mirrors the Class schema fields the controllers read:
capacity (min 1), currentStrength (min 0), owning department. -/
structure ClassDoc where
  id : Nat
  deptId : Nat
  capacity : Int
  currentStrength : Int
  deriving Repr, DecidableEq

/-- Mirrors the Department schema fields the controllers read. -/
structure DeptDoc where
  id : Nat
  totalStudents : Int
  deriving Repr, DecidableEq

/-- Mirrors the Course schema fields the controllers read. -/
structure CourseDoc where
  id : Nat
  deptId : Nat
  courseName : String
  courseCode : String
  maxStudents : Int
  enrolledStudents : Int
  prerequisites : List Nat
  deriving Repr, DecidableEq

/-- Mirrors the Student schema fields the controllers read. -/
structure StudentDoc where
  id : Nat
  rollNumber : String
  email : String
  classId : Nat
  deptId : Nat
  courses : List Nat
  deriving Repr, DecidableEq

/-- The four collections of the document store. -/
structure Store where
  departments : List DeptDoc
  classes : List ClassDoc
  courses : List CourseDoc
  students : List StudentDoc
  deriving Repr, DecidableEq

/-- HTTP response envelope: status category plus the error/success message
the controller puts in the body. -/
inductive Resp where
  | created (msg : String)
  | ok (msg : String)
  | notFound (msg : String)
  | badRequest (msg : String)
  | serverError (msg : String)
  deriving Repr, DecidableEq

/-- Character-wise case mapping on the string's character list (the
embedding of JS toUpperCase/toLowerCase; defined over the character list
so that it evaluates). -/
def strMap (f : Char → Char) (s : String) : String := ⟨s.data.map f⟩

/-- Uppercase normalization (JS toUpperCase). -/
def sUp (s : String) : String := strMap Char.toUpper s

/-- Lowercase normalization (JS toLowerCase). -/
def sLo (s : String) : String := strMap Char.toLower s

/-- A response with success: true (status 200/201). -/
def Resp.success : Resp → Bool
  | .created _ => true
  | .ok _ => true
  | _ => false

def findClass (st : Store) (i : Nat) : Option ClassDoc :=
  st.classes.find? (fun c => c.id == i)

def findDept (st : Store) (i : Nat) : Option DeptDoc :=
  st.departments.find? (fun d => d.id == i)

def findCourse (st : Store) (i : Nat) : Option CourseDoc :=
  st.courses.find? (fun c => c.id == i)

def findStudent (st : Store) (i : Nat) : Option StudentDoc :=
  st.students.find? (fun s => s.id == i)

/-- Persist a class document (`classDoc.save()`); Mongoose validates the
schema on save, so a negative `currentStrength` (min 0) is rejected. -/
def saveClass (st : Store) (c : ClassDoc) : Option Store :=
  if 0 ≤ c.currentStrength then
    some { st with classes := st.classes.map (fun x => if x.id == c.id then c else x) }
  else none

/-- Persist a department document; `totalStudents` has min 0. -/
def saveDept (st : Store) (d : DeptDoc) : Option Store :=
  if 0 ≤ d.totalStudents then
    some { st with departments := st.departments.map (fun x => if x.id == d.id then d else x) }
  else none

/-- Persist a course document; `enrolledStudents` has min 0. -/
def saveCourse (st : Store) (c : CourseDoc) : Option Store :=
  if 0 ≤ c.enrolledStudents then
    some { st with courses := st.courses.map (fun x => if x.id == c.id then c else x) }
  else none

/-- Persist a student document (the modelled fields carry no failing
validation for documents that passed the request validators). -/
def saveStudent (st : Store) (s : StudentDoc) : Store :=
  { st with students := st.students.map (fun x => if x.id == s.id then s else x) }

/-- `Course.updateMany({_id: {$in: ids}}, {$inc: {enrolledStudents: delta}})`;
update validators are not run, so the counter may go negative. -/
def incEnrolledMany (st : Store) (ids : List Nat) (delta : Int) : Store :=
  { st with courses := st.courses.map (fun c =>
      if ids.contains c.id then { c with enrolledStudents := c.enrolledStudents + delta } else c) }

/-- courseController.enrollStudent: POST /api/courses/:id/enroll. -/
def enrollStudent (st : Store) (courseId studentId : Nat) : Resp × Store :=
  match findCourse st courseId with
  | none => (.notFound "Course not found", st)
  | some course =>
    if course.maxStudents ≤ course.enrolledStudents then
      (.badRequest "Course is full", st)
    else
      match findStudent st studentId with
      | none => (.notFound "Student not found", st)
      | some student =>
        if student.courses.contains courseId then
          (.badRequest "Student is already enrolled in this course", st)
        else if !(course.prerequisites.all (fun p => student.courses.contains p)) then
          (.badRequest "Student does not meet course prerequisites", st)
        else
          let st1 := saveStudent st { student with courses := student.courses ++ [courseId] }
          match saveCourse st1 { course with enrolledStudents := course.enrolledStudents + 1 } with
          | some st2 => (.ok "Student enrolled successfully", st2)
          | none => (.serverError "Validation failed", st1)

/-- courseController.withdrawStudent: POST /api/courses/:id/withdraw;
the decrement is floored at zero (`Math.max(0, enrolledStudents - 1)`). -/
def withdrawStudent (st : Store) (courseId studentId : Nat) : Resp × Store :=
  match findCourse st courseId with
  | none => (.notFound "Course not found", st)
  | some course =>
    match findStudent st studentId with
    | none => (.notFound "Student not found", st)
    | some student =>
      if !(student.courses.contains courseId) then
        (.badRequest "Student is not enrolled in this course", st)
      else
        let st1 := saveStudent st { student with courses := student.courses.filter (fun c => c != courseId) }
        match saveCourse st1 { course with enrolledStudents := max 0 (course.enrolledStudents - 1) } with
        | some st2 => (.ok "Student withdrawn successfully", st2)
        | none => (.serverError "Validation failed", st1)

/-- Fresh ObjectId for a new student document. -/
def freshStudentId (st : Store) : Nat :=
  (st.students.map (fun s => s.id)).foldr max 0 + 1

/-- Fresh ObjectId for a new course document. -/
def freshCourseId (st : Store) : Nat :=
  (st.courses.map (fun c => c.id)).foldr max 0 + 1

/-- Request body of POST /api/students (fields the controller reads;
the express-validator middleware guarantees they are present). -/
structure StudentBody where
  rollNumber : String
  email : String
  classId : Nat
  deptId : Nat
  courses : List Nat
  deriving Repr, DecidableEq

/-- Error message for full courses, interpolating the joined course codes. -/
def coursesFullMsg (codes : String) : String :=
  s!"Course(s) {codes} are full"

/-- studentController.createStudent: POST /api/students. Duplicate checks
come first, then class existence and capacity, then department, then
courses; only then is the student persisted and the three counters
incremented. -/
def createStudent (st : Store) (body : StudentBody) : Resp × Store :=
  if st.students.any (fun s => s.rollNumber == body.rollNumber) then
    (.badRequest "Roll number already exists", st)
  else if st.students.any (fun s => s.email == sLo body.email) then
    (.badRequest "Email already exists", st)
  else
    match findClass st body.classId with
    | none => (.notFound "Class not found", st)
    | some cls =>
      if cls.capacity ≤ cls.currentStrength then
        (.badRequest "Class is full. No more seats available", st)
      else
        match findDept st body.deptId with
        | none => (.notFound "Department not found", st)
        | some dept =>
          let found := st.courses.filter (fun c => body.courses.contains c.id)
          if body.courses.length > 0 && found.length != body.courses.length then
            (.notFound "One or more courses not found", st)
          else
            let fullCourses := found.filter (fun c => c.maxStudents ≤ c.enrolledStudents)
            if body.courses.length > 0 && fullCourses.length > 0 then
              (.badRequest (coursesFullMsg (String.intercalate ", " (fullCourses.map (fun c => c.courseCode)))), st)
            else
              let newStudent : StudentDoc :=
                { id := freshStudentId st
                  rollNumber := sUp body.rollNumber
                  email := sLo body.email
                  classId := body.classId
                  deptId := body.deptId
                  courses := body.courses }
              let st1 := { st with students := st.students ++ [newStudent] }
              match saveClass st1 { cls with currentStrength := cls.currentStrength + 1 } with
              | none => (.badRequest "Validation Error", st1)
              | some st2 =>
                match saveDept st2 { dept with totalStudents := dept.totalStudents + 1 } with
                | none => (.badRequest "Validation Error", st2)
                | some st3 =>
                  let st4 := if body.courses.length > 0 then incEnrolledMany st3 body.courses 1 else st3
                  (.created "Student created successfully", st4)

/-- Request body of PUT /api/students/:id (fields the controller handles
specially; absent keys are not in the patch). -/
structure StudentPatch where
  email : Option String := none
  rollNumber : Option String := none
  classId : Option Nat := none
  deptId : Option Nat := none
  courses : Option (List Nat) := none
  deriving Repr, DecidableEq

/-- The class-change block of updateStudent: fetch old and new class,
reject a missing or full new class, then decrement the old strength and
increment the new one (each via a validated save). -/
def updateStudentClassStage (st : Store) (student : StudentDoc) (patch : StudentPatch) :
    Resp ⊕ Store :=
  match patch.classId with
  | none => .inr st
  | some c =>
    if c == student.classId then .inr st
    else
      let oldClass := findClass st student.classId
      match findClass st c with
      | none => .inl (.notFound "New class not found")
      | some newClass =>
        if newClass.capacity ≤ newClass.currentStrength then
          .inl (.badRequest "New class is full")
        else
          let st1res :=
            match oldClass with
            | some oc => saveClass st { oc with currentStrength := oc.currentStrength - 1 }
            | none => some st
          match st1res with
          | none => .inl (.badRequest "Validation Error")
          | some st1 =>
            match saveClass st1 { newClass with currentStrength := newClass.currentStrength + 1 } with
            | none => .inl (.badRequest "Validation Error")
            | some st2 => .inr st2

/-- The department-change block of updateStudent. -/
def updateStudentDeptStage (st : Store) (student : StudentDoc) (patch : StudentPatch) :
    Resp ⊕ Store :=
  match patch.deptId with
  | none => .inr st
  | some d =>
    if d == student.deptId then .inr st
    else
      let oldDept := findDept st student.deptId
      match findDept st d with
      | none => .inl (.notFound "New department not found")
      | some newDept =>
        let st1res :=
          match oldDept with
          | some od => saveDept st { od with totalStudents := od.totalStudents - 1 }
          | none => some st
        match st1res with
        | none => .inl (.badRequest "Validation Error")
        | some st1 =>
          match saveDept st1 { newDept with totalStudents := newDept.totalStudents + 1 } with
          | none => .inl (.badRequest "Validation Error")
          | some st2 => .inr st2

/-- The courses-change block of updateStudent: the removed ids are
decremented first, and only then are the added courses checked for
capacity, so a full added course aborts after the decrements persisted. -/
def updateStudentCoursesStage (st : Store) (student : StudentDoc) (patch : StudentPatch) :
    Resp ⊕ Store :=
  match patch.courses with
  | none => .inr st
  | some newCourses =>
    let oldCourses := student.courses
    let coursesToRemove := oldCourses.filter (fun c => !newCourses.contains c)
    let coursesToAdd := newCourses.filter (fun c => !oldCourses.contains c)
    let st1 := if coursesToRemove.length > 0 then incEnrolledMany st coursesToRemove (-1) else st
    if coursesToAdd.length > 0 then
      let coursesToAddData := st1.courses.filter (fun c => coursesToAdd.contains c.id)
      let fullCourses := coursesToAddData.filter (fun c => c.maxStudents ≤ c.enrolledStudents)
      if fullCourses.length > 0 then
        .inl (.badRequest (coursesFullMsg (String.intercalate ", " (fullCourses.map (fun c => c.courseCode)))))
      else
        .inr (incEnrolledMany st1 coursesToAdd 1)
    else
      .inr st1

/-- Apply the patch fields to the student document, with the email
lowercased and the roll number uppercased when they were changed. -/
def applyStudentPatch (student : StudentDoc) (patch : StudentPatch) : StudentDoc :=
  { student with
      email := match patch.email with
        | some e => if e != student.email then sLo e else e
        | none => student.email
      rollNumber := match patch.rollNumber with
        | some r => if r != student.rollNumber then sUp r else r
        | none => student.rollNumber
      classId := patch.classId.getD student.classId
      deptId := patch.deptId.getD student.deptId
      courses := patch.courses.getD student.courses }

/-- studentController.updateStudent: PUT /api/students/:id. Counter
adjustments for class, department and courses run before the error-free
end of the handler, so a late rejection leaves earlier adjustments in
place. -/
def updateStudent (st : Store) (sid : Nat) (patch : StudentPatch) : Resp × Store :=
  match findStudent st sid with
  | none => (.notFound "Student not found", st)
  | some student =>
    let emailDup :=
      match patch.email with
      | some e => e != student.email &&
          st.students.any (fun s => s.email == sLo e && s.id != sid)
      | none => false
    if emailDup then (.badRequest "Email already exists", st)
    else
      let rollDup :=
        match patch.rollNumber with
        | some r => r != student.rollNumber &&
            st.students.any (fun s => s.rollNumber == sUp r && s.id != sid)
        | none => false
      if rollDup then (.badRequest "Roll number already exists", st)
      else
        match updateStudentClassStage st student patch with
        | .inl r => (r, st)
        | .inr st1 =>
          match updateStudentDeptStage st1 student patch with
          | .inl r => (r, st1)
          | .inr st2 =>
            match updateStudentCoursesStage st2 student patch with
            | .inl r => (r, st2)
            | .inr st3 =>
              (.ok "Student updated successfully", saveStudent st3 (applyStudentPatch student patch))

/-- studentController.deleteStudent: DELETE /api/students/:id. The class
and department decrements go through validated saves (no explicit floor),
the course decrements go through `$inc` (no validators, no floor), then
the student document is removed. -/
def deleteStudent (st : Store) (sid : Nat) : Resp × Store :=
  match findStudent st sid with
  | none => (.notFound "Student not found", st)
  | some student =>
    let st1res :=
      match findClass st student.classId with
      | some c => saveClass st { c with currentStrength := c.currentStrength - 1 }
      | none => some st
    match st1res with
    | none => (.serverError "Validation failed", st)
    | some st1 =>
      let st2res :=
        match findDept st1 student.deptId with
        | some d => saveDept st1 { d with totalStudents := d.totalStudents - 1 }
        | none => some st1
      match st2res with
      | none => (.serverError "Validation failed", st1)
      | some st2 =>
        let st3 := if student.courses.length > 0 then incEnrolledMany st2 student.courses (-1) else st2
        let st4 := { st3 with students := st3.students.filter (fun x => x.id != sid) }
        (.ok "Student deleted successfully", st4)

/-- A draft student in a POST /api/students/bulk batch; JS falsy checks on
the three explicitly validated fields are modelled by the empty string,
and `restValid` abstracts the remaining schema-required fields. -/
structure StudentDraft where
  name : String := ""
  rollNumber : String := ""
  email : String := ""
  classId : Option Nat := none
  deptId : Option Nat := none
  courses : List Nat := []
  restValid : Bool := true
  deriving Repr, DecidableEq

/-- Response of the bulk endpoint: either the whole batch is rejected
(400) or a per-item success/error list is returned (201). -/
inductive BulkResp where
  | rejected (msg : String)
  | processed (successful failed : Nat) (outcomes : List Bool)
  deriving Repr, DecidableEq

/-- One iteration of the bulk-create loop: required-field check, raw
duplicate check against the current store, then `save()` (schema
validation plus the unique indexes on the normalized roll number and
email). No counter is updated on success. -/
def bulkItem (st : Store) (d : StudentDraft) : Bool × Store :=
  if d.name == "" || d.rollNumber == "" || d.email == "" then (false, st)
  else if st.students.any (fun s => s.rollNumber == d.rollNumber || s.email == d.email) then
    (false, st)
  else
    match d.classId, d.deptId with
    | some cid, some did =>
      if d.restValid &&
          !(st.students.any (fun s => s.rollNumber == sUp d.rollNumber || s.email == sLo d.email)) then
        (true, { st with students := st.students ++
          [{ id := freshStudentId st
             rollNumber := sUp d.rollNumber
             email := sLo d.email
             classId := cid
             deptId := did
             courses := d.courses }] })
      else (false, st)
    | _, _ => (false, st)

/-- The bulk-create loop over the drafts, threading the store. -/
def bulkLoop (st : Store) : List StudentDraft → List Bool × Store
  | [] => ([], st)
  | d :: ds =>
    let r := bulkItem st d
    let rest := bulkLoop r.2 ds
    (r.1 :: rest.1, rest.2)

/-- studentController.bulkCreateStudents: POST /api/students/bulk. -/
def bulkCreateStudents (st : Store) (drafts : List StudentDraft) : BulkResp × Store :=
  if drafts.isEmpty then (.rejected "Students array is required", st)
  else if drafts.length > 100 then
    (.rejected "Cannot process more than 100 students at once", st)
  else
    let r := bulkLoop st drafts
    (.processed (r.1.count true) (r.1.count false) r.1, r.2)

/-- Request body of POST /api/courses (modelled fields). -/
structure CourseBody where
  courseName : String
  courseCode : String
  deptId : Nat
  maxStudents : Int
  prerequisites : List Nat
  deriving Repr, DecidableEq

/-- courseController.createCourse: duplicate code check, department
existence, then prerequisite resolution (`Course.find` on the requested
ids must return exactly as many documents as ids were sent). -/
def createCourse (st : Store) (body : CourseBody) : Resp × Store :=
  if st.courses.any (fun c => c.courseCode == sUp body.courseCode) then
    (.badRequest "Course with this code already exists", st)
  else
    match findDept st body.deptId with
    | none => (.notFound "Department not found", st)
    | some _ =>
      let found := st.courses.filter (fun c => body.prerequisites.contains c.id)
      if body.prerequisites.length > 0 && found.length != body.prerequisites.length then
        (.notFound "One or more prerequisites not found", st)
      else
        let newCourse : CourseDoc :=
          { id := freshCourseId st
            deptId := body.deptId
            courseName := body.courseName
            courseCode := sUp body.courseCode
            maxStudents := body.maxStudents
            enrolledStudents := 0
            prerequisites := body.prerequisites }
        (.created "Course created successfully", { st with courses := st.courses ++ [newCourse] })

/-- Request body of PUT /api/courses/:id (modelled fields). -/
structure CoursePatch where
  courseCode : Option String := none
  maxStudents : Option Int := none
  prerequisites : Option (List Nat) := none
  deriving Repr, DecidableEq

/-- courseController.updateCourse: duplicate code check, maxStudents
lower bound against the enrolled count, prerequisite resolution, and the
explicit rejection of the course listing itself as a prerequisite. -/
def updateCourse (st : Store) (cid : Nat) (patch : CoursePatch) : Resp × Store :=
  match findCourse st cid with
  | none => (.notFound "Course not found", st)
  | some course =>
    let codeDup :=
      match patch.courseCode with
      | some cc => cc != course.courseCode &&
          st.courses.any (fun c => c.courseCode == sUp cc && c.id != cid)
      | none => false
    if codeDup then (.badRequest "Course with this code already exists", st)
    else
      let maxTooSmall :=
        match patch.maxStudents with
        | some m => m != 0 && m < course.enrolledStudents
        | none => false
      if maxTooSmall then
        (.badRequest "Maximum students cannot be less than currently enrolled", st)
      else
        let prereqMissing : Bool :=
          match patch.prerequisites with
          | some ps =>
            (st.courses.filter (fun c => ps.contains c.id)).length != ps.length
          | none => false
        if prereqMissing then (.notFound "One or more prerequisites not found", st)
        else
          let selfPrereq :=
            match patch.prerequisites with
            | some ps => ps.contains cid
            | none => false
          if selfPrereq then
            (.badRequest "Course cannot be a prerequisite of itself", st)
          else
            let updated : CourseDoc :=
              { course with
                  courseCode := match patch.courseCode with
                    | some cc => if cc != course.courseCode then sUp cc else cc
                    | none => course.courseCode
                  maxStudents := patch.maxStudents.getD course.maxStudents
                  prerequisites := patch.prerequisites.getD course.prerequisites }
            (.ok "Course updated successfully",
              { st with courses := st.courses.map (fun x : CourseDoc => if x.id == cid then updated else x) })

/-- Error message of a student-blocked course deletion. -/
def courseBlockedByStudentsMsg (n : Nat) : String :=
  s!"Cannot delete course with {n} enrolled students. Remove students first."

/-- Error message of a prerequisite-blocked course deletion. -/
def courseBlockedByPrereqMsg (names : String) : String :=
  s!"Course is a prerequisite for: {names}. Update those courses first."

/-- courseController.deleteCourse: blocked while any student holds the
course or any other course lists it as a prerequisite. -/
def deleteCourse (st : Store) (cid : Nat) : Resp × Store :=
  match findCourse st cid with
  | none => (.notFound "Course not found", st)
  | some _ =>
    let studentCount := (st.students.filter (fun s => s.courses.contains cid)).length
    if studentCount > 0 then
      (.badRequest (courseBlockedByStudentsMsg studentCount), st)
    else
      let dependentCourses := st.courses.filter (fun c => c.prerequisites.contains cid)
      if dependentCourses.length > 0 then
        (.badRequest (courseBlockedByPrereqMsg
          (String.intercalate ", " (dependentCourses.map (fun c => c.courseName)))), st)
      else
        (.ok "Course deleted successfully",
          { st with courses := st.courses.filter (fun c => c.id != cid) })

/-- Error message of a student-blocked class deletion. -/
def classBlockedMsg (n : Nat) : String :=
  s!"Cannot delete class with {n} students. Remove students first."

/-- classController.deleteClass: blocked while any student references the
class. -/
def deleteClass (st : Store) (cid : Nat) : Resp × Store :=
  match findClass st cid with
  | none => (.notFound "Class not found", st)
  | some _ =>
    let studentCount := (st.students.filter (fun s => s.classId == cid)).length
    if studentCount > 0 then
      (.badRequest (classBlockedMsg studentCount), st)
    else
      (.ok "Class deleted successfully",
        { st with classes := st.classes.filter (fun c => c.id != cid) })

/-- Error message of a blocked department deletion, reporting all three
blocking counts. -/
def deptBlockedMsg (c s k : Nat) : String :=
  s!"Cannot delete department. It has {c} classes, {s} students, and {k} courses."

/-- departmentController.deleteDepartment: blocked while any class,
student or course references the department. -/
def deleteDepartment (st : Store) (did : Nat) : Resp × Store :=
  match findDept st did with
  | none => (.notFound "Department not found", st)
  | some _ =>
    let classCount := (st.classes.filter (fun c => c.deptId == did)).length
    let studentCount := (st.students.filter (fun s => s.deptId == did)).length
    let courseCount := (st.courses.filter (fun c => c.deptId == did)).length
    if classCount > 0 || studentCount > 0 || courseCount > 0 then
      (.badRequest (deptBlockedMsg classCount studentCount courseCount), st)
    else
      (.ok "Department deleted successfully",
        { st with departments := st.departments.filter (fun d => d.id != did) })

/-- The utilization formula the spec states: enrolled / capacity * 100,
defined as zero when the capacity denominator is zero. -/
def ratePct (enrolled capacity : Int) : Rat :=
  if capacity = 0 then 0 else (enrolled : Rat) / (capacity : Rat) * 100

/-- Overview block of GET /api/classes/stats. -/
structure ClassOverview where
  totalClasses : Nat
  totalCapacity : Int
  totalStudents : Int
  overallUtilization : Rat
  deriving Repr, DecidableEq

/-- The zeroed overview returned when the aggregation yields no row. -/
def zeroClassOverview : ClassOverview :=
  { totalClasses := 0, totalCapacity := 0, totalStudents := 0, overallUtilization := 0 }

/-- Overall class aggregation of getClassStats; `overallUtilization`
divides by `totalCapacity` with no zero guard, so a zero total capacity
makes the pipeline ($divide) fail, and an empty collection falls back to
the zeroed overview. -/
def classOverviewAgg (classes : List ClassDoc) : Option ClassOverview :=
  if classes.isEmpty then some zeroClassOverview
  else
    let cap := (classes.map (fun c => c.capacity)).sum
    let str := (classes.map (fun c => c.currentStrength)).sum
    if cap = 0 then none
    else some
      { totalClasses := classes.length
        totalCapacity := cap
        totalStudents := str
        overallUtilization := (str : Rat) / (cap : Rat) * 100 }

/-- One department group in the department-wise class aggregation. -/
structure DeptClassEntry where
  deptId : Nat
  classCount : Nat
  totalCapacity : Int
  totalStudents : Int
  utilizationRate : Rat
  deriving Repr, DecidableEq

/-- Department-wise class aggregation of getClassStats: classes are
grouped by resolvable department ($lookup + $unwind drops classes with a
dangling department), and `utilizationRate` divides without a zero
guard. -/
def deptWiseClassAgg (st : Store) : Option (List DeptClassEntry) :=
  (st.departments.filter (fun d => st.classes.any (fun c => c.deptId == d.id))).mapM
    (fun d =>
      let g := st.classes.filter (fun c => c.deptId == d.id)
      let cap := (g.map (fun c => c.capacity)).sum
      let str := (g.map (fun c => c.currentStrength)).sum
      if cap = 0 then none
      else some
        { deptId := d.id
          classCount := g.length
          totalCapacity := cap
          totalStudents := str
          utilizationRate := (str : Rat) / (cap : Rat) * 100 })

/-- Full report of GET /api/classes/stats. -/
structure ClassStatsReport where
  overview : ClassOverview
  departmentWise : List DeptClassEntry
  deriving Repr, DecidableEq

/-- classController.getClassStats as a pure read of the store; `none`
models the aggregation pipeline erroring (500 response). -/
def getClassStats (st : Store) : Option ClassStatsReport := do
  let ov ← classOverviewAgg st.classes
  let dw ← deptWiseClassAgg st
  pure { overview := ov, departmentWise := dw }

/-- Overview block of GET /api/courses/stats. -/
structure CourseOverview where
  totalCourses : Nat
  totalCapacity : Int
  totalEnrolled : Int
  enrollmentRate : Rat
  deriving Repr, DecidableEq

/-- The zeroed overview returned when the aggregation yields no row. -/
def zeroCourseOverview : CourseOverview :=
  { totalCourses := 0, totalCapacity := 0, totalEnrolled := 0, enrollmentRate := 0 }

/-- Overall course aggregation of getCourseStats; unlike the class stats
the division is guarded by a $cond on zero capacity. -/
def courseOverviewAgg (courses : List CourseDoc) : CourseOverview :=
  if courses.isEmpty then zeroCourseOverview
  else
    let cap := (courses.map (fun c => c.maxStudents)).sum
    let enr := (courses.map (fun c => c.enrolledStudents)).sum
    { totalCourses := courses.length
      totalCapacity := cap
      totalEnrolled := enr
      enrollmentRate := (if cap = 0 then 0 else (enr : Rat) / (cap : Rat)) * 100 }

/-- One department group in the department-wise course aggregation. -/
structure DeptCourseEntry where
  deptId : Nat
  courseCount : Nat
  totalCapacity : Int
  totalEnrolled : Int
  enrollmentRate : Rat
  deriving Repr, DecidableEq

/-- Department-wise course aggregation of getCourseStats, with the same
zero-capacity $cond guard. -/
def deptWiseCourseAgg (st : Store) : List DeptCourseEntry :=
  (st.departments.filter (fun d => st.courses.any (fun c => c.deptId == d.id))).map
    (fun d =>
      let g := st.courses.filter (fun c => c.deptId == d.id)
      let cap := (g.map (fun c => c.maxStudents)).sum
      let enr := (g.map (fun c => c.enrolledStudents)).sum
      { deptId := d.id
        courseCount := g.length
        totalCapacity := cap
        totalEnrolled := enr
        enrollmentRate := (if cap = 0 then 0 else (enr : Rat) / (cap : Rat)) * 100 })

/-- Full report of GET /api/courses/stats. -/
structure CourseStatsReport where
  overview : CourseOverview
  departmentWise : List DeptCourseEntry
  deriving Repr, DecidableEq

/-- courseController.getCourseStats as a pure read of the store. -/
def getCourseStats (st : Store) : CourseStatsReport :=
  { overview := courseOverviewAgg st.courses
    departmentWise := deptWiseCourseAgg st }

/-- Number of student documents whose class field references the id. -/
def classRefs (students : List StudentDoc) (cid : Nat) : Nat :=
  students.countP (fun s => s.classId == cid)

/-- Number of student documents whose department field references the id. -/
def deptRefs (students : List StudentDoc) (did : Nat) : Nat :=
  students.countP (fun s => s.deptId == did)

/-- Number of student documents whose course set contains the id. -/
def courseRefs (students : List StudentDoc) (cid : Nat) : Nat :=
  students.countP (fun s => s.courses.contains cid)

/-- The three denormalized-counter invariants of the spec: every class,
department and course counter equals the live count of student documents
referencing it. -/
def countersConsistent (st : Store) : Prop :=
  (∀ c ∈ st.classes, c.currentStrength = (classRefs st.students c.id : Int)) ∧
  (∀ d ∈ st.departments, d.totalStudents = (deptRefs st.students d.id : Int)) ∧
  (∀ k ∈ st.courses, k.enrolledStudents = (courseRefs st.students k.id : Int))

instance (st : Store) : Decidable (countersConsistent st) := by
  unfold countersConsistent
  infer_instance

/-- Store well-formedness: document ids are unique per collection, as
MongoDB guarantees for `_id`. -/
def Store.WF (st : Store) : Prop :=
  (st.departments.map (fun d => d.id)).Nodup ∧
  (st.classes.map (fun c => c.id)).Nodup ∧
  (st.courses.map (fun c => c.id)).Nodup ∧
  (st.students.map (fun s => s.id)).Nodup

instance (st : Store) : Decidable st.WF := by
  unfold Store.WF
  infer_instance

/-- Invariant of claim C9: no course lists itself as a prerequisite. -/
def prereqSelfFree (st : Store) : Prop :=
  ∀ k ∈ st.courses, ¬ k.prerequisites.contains k.id

instance (st : Store) : Decidable (prereqSelfFree st) := by
  unfold prereqSelfFree
  infer_instance

/-! Concrete example stores used by the counterexample and witness
theorems below. All of them are schema-valid (non-negative counters,
positive capacities). -/

/-- A consistent one-class one-department store with no students. -/
def bulkExStore : Store := ⟨[⟨1, 0⟩], [⟨1, 1, 10, 0⟩], [], []⟩

/-- A fully valid draft targeting class 1 / department 1. -/
def bulkExDraft : StudentDraft :=
  { name := "Ali", rollNumber := "CS1", email := "a@x.com", classId := some 1, deptId := some 1 }

/-- A store whose single class is at capacity and whose single student
holds roll number CS1. -/
def fullClassStore : Store :=
  ⟨[⟨1, 1⟩], [⟨1, 1, 1, 1⟩], [], [⟨1, "CS1", "a@x.com", 1, 1, []⟩]⟩

/-- A creation request whose roll number duplicates the stored student
and whose target class is full. -/
def dupRollBody : StudentBody := ⟨"CS1", "b@x.com", 1, 1, []⟩

/-- A schema-valid store (reachable through the bulk endpoint, which
skips every counter update): student 1 references course 1 while the
course counter is 0. -/
def driftedStore : Store :=
  ⟨[⟨1, 1⟩], [⟨1, 1, 10, 1⟩], [⟨1, 1, "Intro", "CS101", 10, 0, []⟩],
   [⟨1, "CS1", "a@x.com", 1, 1, [1]⟩]⟩

/-- A store whose single course is full and which has no students. -/
def fullCourseStore : Store :=
  ⟨[⟨1, 1⟩], [], [⟨1, 1, "Intro", "CS101", 1, 1, []⟩], []⟩

/-- A store with one existing student whose email is dup@x.com. -/
def bulkDupStore : Store :=
  ⟨[⟨1, 1⟩], [⟨1, 1, 10, 1⟩], [], [⟨1, "R1", "dup@x.com", 1, 1, []⟩]⟩

/-- Two valid drafts and one draft duplicating an existing email. -/
def bulkDupDrafts : List StudentDraft :=
  [{ name := "A", rollNumber := "R2", email := "a2@x.com", classId := some 1, deptId := some 1 },
   { name := "B", rollNumber := "R3", email := "a3@x.com", classId := some 1, deptId := some 1 },
   { name := "C", rollNumber := "R4", email := "dup@x.com", classId := some 1, deptId := some 1 }]

/-- A consistent store with two classes, a full course, and two students;
student 1 can move from class 1 to class 2 but cannot add course 1. -/
def partialUpdateStore : Store :=
  ⟨[⟨1, 2⟩], [⟨1, 1, 10, 2⟩, ⟨2, 1, 10, 0⟩], [⟨1, 1, "Klab", "CS101", 1, 1, []⟩],
   [⟨1, "CS1", "a@x.com", 1, 1, []⟩, ⟨2, "CS2", "b@x.com", 1, 1, [1]⟩]⟩

/-- The patch moving student 1 into class 2 while adding full course 1. -/
def partialUpdatePatch : StudentPatch := { classId := some 2, courses := some [1] }

/-- A consistent store with one student enrolled in one course. -/
def roundTripStore : Store :=
  ⟨[⟨1, 1⟩], [⟨1, 1, 10, 1⟩], [⟨1, 1, "Intro", "CS101", 5, 1, []⟩],
   [⟨1, "CS1", "a@x.com", 1, 1, [1]⟩]⟩

/-- A consistent store with a department that still owns a class, a class
that still holds a student, and a course that is both held by a student
and a prerequisite of another course. -/
def referencedStore : Store :=
  ⟨[⟨1, 1⟩], [⟨1, 1, 10, 1⟩],
   [⟨1, 1, "Intro", "CS101", 10, 1, []⟩, ⟨2, 1, "Adv", "CS201", 10, 0, [1]⟩],
   [⟨1, "CS1", "a@x.com", 1, 1, [1]⟩]⟩

/-- A store for the enrollment witness: an open course with a satisfied
prerequisite. -/
def enrollWitnessStore : Store :=
  ⟨[⟨1, 1⟩], [⟨1, 1, 10, 1⟩],
   [⟨1, 1, "Intro", "CS101", 10, 1, []⟩, ⟨2, 1, "Adv", "CS201", 10, 0, [1]⟩],
   [⟨1, "CS1", "a@x.com", 1, 1, [1]⟩]⟩

/-- A store for the course-invariant witness: two courses, the second
listing the first as its prerequisite. -/
def courseWitnessStore : Store :=
  ⟨[⟨1, 0⟩], [],
   [⟨1, 1, "Intro", "CS101", 10, 0, []⟩, ⟨2, 1, "Adv", "CS201", 10, 0, [1]⟩], []⟩

/-- A minimal well-formed, counter-consistent store with one document per
collection; the student references the class, department and course. -/
def c1Store : Store :=
  ⟨[⟨1, 1⟩], [⟨1, 1, 10, 1⟩], [⟨1, 1, "Intro", "CS101", 10, 1, []⟩],
   [⟨1, "R1", "a@b.c", 1, 1, [1]⟩]⟩

/-! Generic lemmas about keyed lists: a Mongoose `save()` is a map that
replaces every document carrying the saved document's id, and `_id`
uniqueness makes that replacement unique. -/

section ListKey

variable {α : Type} (key : α → Nat)

theorem replace_eq_self_of_find?_none (l : List α) (j : Nat) (d : α)
    (h : l.find? (fun x => key x == j) = none) :
    l.map (fun x => if key x == j then d else x) = l := by
  induction l with
  | nil => rfl
  | cons y ys ih =>
    by_cases hy : (key y == j) = true
    · rw [List.find?_cons_of_pos ys hy] at h
      exact absurd h (by simp)
    · rw [List.find?_cons_of_neg ys (by simpa using hy)] at h
      simp only [List.map_cons, if_neg hy, ih h]

theorem find?_replace_self (l : List α) (j : Nat) (d : α) (hd : key d = j) (a : α)
    (h : l.find? (fun x => key x == j) = some a) :
    (l.map (fun x => if key x == j then d else x)).find? (fun x => key x == j) = some d := by
  induction l with
  | nil => simp at h
  | cons y ys ih =>
    by_cases hy : (key y == j) = true
    · simp only [List.map_cons, if_pos hy]
      exact List.find?_cons_of_pos _ (by simp [hd])
    · rw [List.find?_cons_of_neg ys (by simpa using hy)] at h
      simp only [List.map_cons, if_neg hy]
      rw [List.find?_cons_of_neg _ (by simpa using hy)]
      exact ih h

theorem find?_replace_other (l : List α) (i j : Nat) (d : α) (hd : key d = j) (hij : i ≠ j) :
    (l.map (fun x => if key x == j then d else x)).find? (fun x => key x == i) =
      l.find? (fun x => key x == i) := by
  induction l with
  | nil => rfl
  | cons y ys ih =>
    cases hy : (key y == j) with
    | true =>
      have hyj : key y = j := by simpa using hy
      have hyi : (key y == i) = false := by
        simp only [beq_eq_false_iff_ne, ne_eq]
        omega
      have hdi : (key d == i) = false := by
        simp only [beq_eq_false_iff_ne, ne_eq]
        omega
      simp only [List.map_cons, if_pos hy, List.find?_cons, hyi, hdi]
      exact ih
    | false =>
      have hcond : ¬ ((key y == j) = true) := by simp [hy]
      simp only [List.map_cons, if_neg hcond, List.find?_cons]
      cases hyi : (key y == i) with
      | true => rfl
      | false => exact ih

theorem mem_replace_cases {l : List α} {j : Nat} {d y : α}
    (hy : y ∈ l.map (fun x => if key x == j then d else x)) :
    y = d ∨ (y ∈ l ∧ (key y == j) = false) := by
  rcases List.mem_map.1 hy with ⟨x, hx, hxy⟩
  by_cases hxj : (key x == j) = true
  · left
    rw [if_pos hxj] at hxy
    exact hxy.symm
  · right
    rw [if_neg hxj] at hxy
    subst hxy
    exact ⟨hx, by simpa using hxj⟩

theorem countP_replace (l : List α) (j : Nat) (d a : α) (p : α → Bool)
    (hnd : (l.map key).Nodup)
    (h : l.find? (fun x => key x == j) = some a) :
    (l.map (fun x => if key x == j then d else x)).countP p + (if p a then 1 else 0) =
      l.countP p + (if p d then 1 else 0) := by
  induction l with
  | nil => simp at h
  | cons y ys ih =>
    rw [List.map_cons, List.nodup_cons] at hnd
    cases hy : (key y == j) with
    | true =>
      rw [List.find?_cons, hy] at h
      have hay : a = y := by simpa using h.symm
      subst hay
      have hrest : ys.map (fun x => if key x == j then d else x) = ys := by
        refine replace_eq_self_of_find?_none key ys j d (List.find?_eq_none.2 ?_)
        intro x hx
        have hmem : key x ∈ ys.map key := List.mem_map_of_mem key hx
        simp only [beq_iff_eq] at hy
        intro hxj
        simp only [beq_iff_eq] at hxj
        exact hnd.1 (by rw [hxj, ← hy] at hmem; exact hmem)
      simp only [List.map_cons, if_pos hy, hrest, List.countP_cons]
      omega
    | false =>
      rw [List.find?_cons, hy] at h
      have := ih hnd.2 h
      have hcond : ¬ ((key y == j) = true) := by simp [hy]
      simp only [List.map_cons, if_neg hcond, List.countP_cons]
      omega

theorem countP_erase_key (l : List α) (j : Nat) (a : α) (p : α → Bool)
    (hnd : (l.map key).Nodup)
    (h : l.find? (fun x => key x == j) = some a) :
    (l.filter (fun x => key x != j)).countP p + (if p a then 1 else 0) = l.countP p := by
  induction l with
  | nil => simp at h
  | cons y ys ih =>
    rw [List.map_cons, List.nodup_cons] at hnd
    cases hy : (key y == j) with
    | true =>
      rw [List.find?_cons, hy] at h
      have hay : a = y := by simpa using h.symm
      subst hay
      have hrest : ys.filter (fun x => key x != j) = ys := by
        refine List.filter_eq_self.2 ?_
        intro x hx
        have hmem : key x ∈ ys.map key := List.mem_map_of_mem key hx
        simp only [beq_iff_eq] at hy
        simp only [bne_iff_ne, ne_eq, beq_iff_eq]
        intro hxj
        exact hnd.1 (by rw [hxj, ← hy] at hmem; exact hmem)
      have hcond : ¬ ((key a != j) = true) := by simpa using hy
      rw [List.filter_cons, if_neg hcond, hrest]
      simp only [List.countP_cons]
    | false =>
      rw [List.find?_cons, hy] at h
      have := ih hnd.2 h
      have hne : (key y != j) = true := by simpa using hy
      rw [List.filter_cons, if_pos hne]
      simp only [List.countP_cons]
      omega

theorem countP_pos_of_mem {l : List α} {a : α} {p : α → Bool}
    (ha : a ∈ l) (hpa : p a = true) : 0 < l.countP p :=
  List.countP_pos_iff.2 ⟨a, ha, hpa⟩

theorem find?_map_keyed (f : α → α) (hf : ∀ x, key (f x) = key x) (l : List α) (i : Nat) :
    (l.map f).find? (fun x => key x == i) = (l.find? (fun x => key x == i)).map f := by
  induction l with
  | nil => rfl
  | cons y ys ih =>
    cases hy : (key y == i) with
    | true =>
      have hfy : (key (f y) == i) = true := by rw [hf]; exact hy
      simp only [List.map_cons, List.find?_cons, hfy, hy]
      rfl
    | false =>
      have hfy : (key (f y) == i) = false := by rw [hf]; exact hy
      simp only [List.map_cons, List.find?_cons, hfy, hy]
      exact ih

theorem find?_filter_erased (l : List α) (j : Nat) :
    (l.filter (fun x => key x != j)).find? (fun x => key x == j) = none := by
  rw [List.find?_eq_none]
  intro x hx
  have hne := (List.mem_filter.1 hx).2
  simpa using hne

end ListKey

/-! Projection lemmas: looking one collection up is unaffected by
replacing a different collection. -/

theorem findDept_set_classes (st : Store) (cs : List ClassDoc) (i : Nat) :
    findDept { st with classes := cs } i = findDept st i := rfl

theorem findDept_set_courses (st : Store) (cs : List CourseDoc) (i : Nat) :
    findDept { st with courses := cs } i = findDept st i := rfl

theorem findDept_set_students (st : Store) (cs : List StudentDoc) (i : Nat) :
    findDept { st with students := cs } i = findDept st i := rfl

theorem findClass_set_depts (st : Store) (cs : List DeptDoc) (i : Nat) :
    findClass { st with departments := cs } i = findClass st i := rfl

theorem findClass_set_courses (st : Store) (cs : List CourseDoc) (i : Nat) :
    findClass { st with courses := cs } i = findClass st i := rfl

theorem findClass_set_students (st : Store) (cs : List StudentDoc) (i : Nat) :
    findClass { st with students := cs } i = findClass st i := rfl

theorem findCourse_set_depts (st : Store) (cs : List DeptDoc) (i : Nat) :
    findCourse { st with departments := cs } i = findCourse st i := rfl

theorem findCourse_set_classes (st : Store) (cs : List ClassDoc) (i : Nat) :
    findCourse { st with classes := cs } i = findCourse st i := rfl

theorem findCourse_set_students (st : Store) (cs : List StudentDoc) (i : Nat) :
    findCourse { st with students := cs } i = findCourse st i := rfl

theorem findStudent_set_depts (st : Store) (cs : List DeptDoc) (i : Nat) :
    findStudent { st with departments := cs } i = findStudent st i := rfl

theorem findStudent_set_classes (st : Store) (cs : List ClassDoc) (i : Nat) :
    findStudent { st with classes := cs } i = findStudent st i := rfl

theorem findStudent_set_courses (st : Store) (cs : List CourseDoc) (i : Nat) :
    findStudent { st with courses := cs } i = findStudent st i := rfl

/-- C1 (counterexample): starting from a consistent store, a bulk-create
whose single item succeeds leaves every counter untouched, so the class
counter no longer equals the count of students referencing the class. -/
theorem bulk_create_breaks_counters :
    countersConsistent bulkExStore ∧
    (bulkCreateStudents bulkExStore [bulkExDraft]).1 = .processed 1 0 [true] ∧
    ¬ countersConsistent (bulkCreateStudents bulkExStore [bulkExDraft]).2 :=
  ⟨by decide, by decide, by decide⟩

/-- C2 (counterexample): a creation request into a class at capacity is
rejected for its duplicate roll number, not with the capacity error, so
"fails with CapacityExceeded" does not hold of every such request. -/
theorem create_full_class_duplicate_roll_not_capacity :
    (∃ cls, findClass fullClassStore dupRollBody.classId = some cls ∧
      cls.capacity ≤ cls.currentStrength) ∧
    (createStudent fullClassStore dupRollBody).1 = .badRequest "Roll number already exists" ∧
    (createStudent fullClassStore dupRollBody).1 ≠
      .badRequest "Class is full. No more seats available" :=
  ⟨⟨⟨1, 1, 1, 1⟩, by decide, by decide⟩, by decide, by decide⟩

/-- C3 (counterexample): deleting an existing student succeeds while
driving a referenced course counter to -1: the course decrement runs
through `$inc` with no validators and no floor at zero. -/
theorem delete_student_course_counter_goes_negative :
    (deleteStudent driftedStore 1).1 = .ok "Student deleted successfully" ∧
    findCourse (deleteStudent driftedStore 1).2 1 =
      some ⟨1, 1, "Intro", "CS101", 10, -1, []⟩ :=
  ⟨by decide, by decide⟩

/-- C4 (counterexample): with a full course and an unresolvable student
id, enrollStudent answers with the capacity error, not NotFound — the
full check runs before the student lookup. -/
theorem enroll_full_course_masks_missing_student :
    findStudent fullCourseStore 99 = none ∧
    (enrollStudent fullCourseStore 1 99).1 = .badRequest "Course is full" :=
  ⟨by decide, by decide⟩

/-- C10: a concrete update request (move student 1 to class 2 and add the
full course 1) returns an error response even though both class counters
were already changed, while the student document itself is unchanged. -/
theorem update_student_partial_counter_mutation :
    (updateStudent partialUpdateStore 1 partialUpdatePatch).1 =
      .badRequest (coursesFullMsg "CS101") ∧
    findClass (updateStudent partialUpdateStore 1 partialUpdatePatch).2 1 =
      some ⟨1, 1, 10, 1⟩ ∧
    findClass (updateStudent partialUpdateStore 1 partialUpdatePatch).2 2 =
      some ⟨2, 1, 10, 1⟩ ∧
    findClass partialUpdateStore 1 = some ⟨1, 1, 10, 2⟩ ∧
    findClass partialUpdateStore 2 = some ⟨2, 1, 10, 0⟩ ∧
    findStudent (updateStudent partialUpdateStore 1 partialUpdatePatch).2 1 =
      findStudent partialUpdateStore 1 :=
  ⟨by decide, by decide, by decide, by decide, by decide, by decide⟩

/-- C2 (amended): every creation request whose target class is at
capacity fails with success:false and leaves the store — hence every
counter — exactly as it was; the response is the capacity error when the
roll number and email are not already taken (otherwise the earlier
duplicate check answers first). -/
theorem create_into_full_class_rejected (st : Store) (body : StudentBody) (cls : ClassDoc)
    (hfind : findClass st body.classId = some cls)
    (hfull : cls.capacity ≤ cls.currentStrength) :
    (createStudent st body).2 = st ∧ (createStudent st body).1.success = false ∧
    (st.students.any (fun s => s.rollNumber == body.rollNumber) = false →
      st.students.any (fun s => s.email == sLo body.email) = false →
      (createStudent st body).1 = .badRequest "Class is full. No more seats available") := by
  unfold createStudent
  cases hroll : st.students.any (fun s => s.rollNumber == body.rollNumber) with
  | true => simp [Resp.success]
  | false =>
    cases hemail : st.students.any (fun s => s.email == sLo body.email) with
    | true => simp [Resp.success]
    | false =>
      rw [hfind]
      simp [hfull, Resp.success]

/-- C2 witness: the full-class rejection evaluated on a concrete store. -/
theorem create_into_full_class_rejected_witness :
    (createStudent fullClassStore ⟨"CS9", "c@x.com", 1, 1, []⟩).2 = fullClassStore ∧
    (createStudent fullClassStore ⟨"CS9", "c@x.com", 1, 1, []⟩).1.success = false ∧
    (fullClassStore.students.any (fun s => s.rollNumber == "CS9") = false →
      fullClassStore.students.any (fun s => s.email == sLo "c@x.com") = false →
      (createStudent fullClassStore ⟨"CS9", "c@x.com", 1, 1, []⟩).1 =
        .badRequest "Class is full. No more seats available") :=
  create_into_full_class_rejected fullClassStore ⟨"CS9", "c@x.com", 1, 1, []⟩ ⟨1, 1, 1, 1⟩
    (by decide) (by decide)

/-- C5: deleting a department, class or course that is still referenced
fails with a 400 response whose message reports the blocking references,
and the store is returned unchanged. -/
theorem delete_blocked_while_referenced (st : Store) :
    (∀ did d, findDept st did = some d →
      0 < (st.classes.filter (fun c => c.deptId == did)).length ∨
      0 < (st.students.filter (fun s => s.deptId == did)).length ∨
      0 < (st.courses.filter (fun c => c.deptId == did)).length →
      deleteDepartment st did =
        (.badRequest (deptBlockedMsg
          (st.classes.filter (fun c => c.deptId == did)).length
          (st.students.filter (fun s => s.deptId == did)).length
          (st.courses.filter (fun c => c.deptId == did)).length), st)) ∧
    (∀ cid c, findClass st cid = some c →
      0 < (st.students.filter (fun s => s.classId == cid)).length →
      deleteClass st cid =
        (.badRequest (classBlockedMsg
          (st.students.filter (fun s => s.classId == cid)).length), st)) ∧
    (∀ kid k, findCourse st kid = some k →
      (0 < (st.students.filter (fun s => s.courses.contains kid)).length →
        deleteCourse st kid =
          (.badRequest (courseBlockedByStudentsMsg
            (st.students.filter (fun s => s.courses.contains kid)).length), st)) ∧
      ((st.students.filter (fun s => s.courses.contains kid)).length = 0 →
        0 < (st.courses.filter (fun c => c.prerequisites.contains kid)).length →
        deleteCourse st kid =
          (.badRequest (courseBlockedByPrereqMsg (String.intercalate ", "
            ((st.courses.filter (fun c => c.prerequisites.contains kid)).map
              (fun c => c.courseName)))), st))) := by
  refine ⟨?_, ?_, ?_⟩
  · intro did d hfind hblock
    unfold deleteDepartment
    rw [hfind]
    have hcond : ((st.classes.filter (fun c => c.deptId == did)).length > 0 ||
        (st.students.filter (fun s => s.deptId == did)).length > 0 ||
        (st.courses.filter (fun c => c.deptId == did)).length > 0) = true := by
      rcases hblock with h | h | h <;> simp [h]
    simp only [hcond]
    simp
  · intro cid c hfind hblock
    unfold deleteClass
    rw [hfind]
    simp [hblock]
  · intro kid k hfind
    constructor
    · intro hblock
      unfold deleteCourse
      rw [hfind, if_pos hblock]
    · intro hzero hblock
      unfold deleteCourse
      rw [hfind, if_neg (by omega), if_pos hblock]

/-- C5 witness: the blocked deletions evaluated on a concrete store where
the department, the class and the course are each referenced. -/
theorem delete_blocked_while_referenced_witness :
    deleteDepartment referencedStore 1 =
      (.badRequest (deptBlockedMsg 1 1 2), referencedStore) ∧
    deleteClass referencedStore 1 =
      (.badRequest (classBlockedMsg 1), referencedStore) ∧
    deleteCourse referencedStore 1 =
      (.badRequest (courseBlockedByStudentsMsg 1), referencedStore) :=
  ⟨(delete_blocked_while_referenced referencedStore).1 1 ⟨1, 1⟩ (by decide)
      (by right; right; decide),
   (delete_blocked_while_referenced referencedStore).2.1 1 ⟨1, 1, 10, 1⟩ (by decide) (by decide),
   ((delete_blocked_while_referenced referencedStore).2.2 1
      ⟨1, 1, "Intro", "CS101", 10, 1, []⟩ (by decide)).1 (by decide)⟩

/-- Case analysis of enrollStudent, shared by several theorems below. -/
theorem enrollStudent_cases (st : Store) (cid sid : Nat) :
    (findCourse st cid = none → enrollStudent st cid sid = (.notFound "Course not found", st)) ∧
    (∀ k, findCourse st cid = some k →
      (k.maxStudents ≤ k.enrolledStudents →
        enrollStudent st cid sid = (.badRequest "Course is full", st)) ∧
      (k.enrolledStudents < k.maxStudents →
        (findStudent st sid = none →
          enrollStudent st cid sid = (.notFound "Student not found", st)) ∧
        (∀ s, findStudent st sid = some s →
          (s.courses.contains cid = true →
            enrollStudent st cid sid =
              (.badRequest "Student is already enrolled in this course", st)) ∧
          (s.courses.contains cid = false →
            (k.prerequisites.all (fun p => s.courses.contains p) = false →
              enrollStudent st cid sid =
                (.badRequest "Student does not meet course prerequisites", st)) ∧
            (k.prerequisites.all (fun p => s.courses.contains p) = true →
              0 ≤ k.enrolledStudents →
              (enrollStudent st cid sid).1 = .ok "Student enrolled successfully" ∧
              findCourse (enrollStudent st cid sid).2 cid =
                some { k with enrolledStudents := k.enrolledStudents + 1 } ∧
              findStudent (enrollStudent st cid sid).2 sid =
                some { s with courses := s.courses ++ [cid] }))))) := by
  constructor
  · intro hnone
    unfold enrollStudent
    rw [hnone]
  · intro k hk
    have hkid : k.id = cid := by
      have := List.find?_some hk
      simpa using this
    constructor
    · intro hfull
      unfold enrollStudent
      rw [hk]
      simp only [if_pos hfull]
    · intro hnotfull
      have hknot : ¬ (k.maxStudents ≤ k.enrolledStudents) := by omega
      constructor
      · intro hsnone
        unfold enrollStudent
        rw [hk]
        simp only [if_neg hknot, hsnone]
      · intro s hs
        have hsid : s.id = sid := by
          have := List.find?_some hs
          simpa using this
        constructor
        · intro henr
          unfold enrollStudent
          rw [hk]
          simp only [if_neg hknot, hs, if_pos henr]
        · intro hnenr
          have hnenr2 : ¬ (s.courses.contains cid = true) := by rw [hnenr]; simp
          constructor
          · intro hpre
            have hpre2 : (!(k.prerequisites.all (fun p => s.courses.contains p))) = true := by
              rw [hpre]
              rfl
            unfold enrollStudent
            rw [hk]
            simp only [if_neg hknot, hs, if_neg hnenr2, if_pos hpre2]
          · intro hpre hnonneg
            have hpre2 : ¬ ((!(k.prerequisites.all (fun p => s.courses.contains p))) = true) := by
              rw [hpre]
              simp
            have hpos : (0:Int) ≤ k.enrolledStudents + 1 := by omega
            unfold enrollStudent
            rw [hk]
            simp only [if_neg hknot, hs, if_neg hnenr2, if_neg hpre2, saveCourse, if_pos hpos]
            refine ⟨by trivial, ?_, ?_⟩
            · have hcourse := find?_replace_self (fun c : CourseDoc => c.id) st.courses cid
                { k with enrolledStudents := k.enrolledStudents + 1 } (by simpa using hkid) k
                (by simpa [findCourse] using hk)
              simpa [findCourse, saveStudent, hkid] using hcourse
            · have hstud := find?_replace_self (fun x : StudentDoc => x.id) st.students sid
                { s with courses := s.courses ++ [cid] } (by simpa using hsid) s
                (by simpa [findStudent] using hs)
              simpa [findStudent, saveStudent, hsid] using hstud

/-- C4 (amended): enrollStudent answers in this priority order: course
NotFound, then CapacityExceeded (checked before the student lookup), then
student NotFound, then already-enrolled Conflict, then PrerequisiteUnmet;
every failure leaves the store unchanged, and on success the course id is
appended to the student's course set and enrolledStudents grows by one. -/
theorem enroll_student_spec (st : Store) (cid sid : Nat) :
    (findCourse st cid = none → enrollStudent st cid sid = (.notFound "Course not found", st)) ∧
    (∀ k, findCourse st cid = some k →
      (k.maxStudents ≤ k.enrolledStudents →
        enrollStudent st cid sid = (.badRequest "Course is full", st)) ∧
      (k.enrolledStudents < k.maxStudents →
        (findStudent st sid = none →
          enrollStudent st cid sid = (.notFound "Student not found", st)) ∧
        (∀ s, findStudent st sid = some s →
          (s.courses.contains cid = true →
            enrollStudent st cid sid =
              (.badRequest "Student is already enrolled in this course", st)) ∧
          (s.courses.contains cid = false →
            (k.prerequisites.all (fun p => s.courses.contains p) = false →
              enrollStudent st cid sid =
                (.badRequest "Student does not meet course prerequisites", st)) ∧
            (k.prerequisites.all (fun p => s.courses.contains p) = true →
              0 ≤ k.enrolledStudents →
              (enrollStudent st cid sid).1 = .ok "Student enrolled successfully" ∧
              findCourse (enrollStudent st cid sid).2 cid =
                some { k with enrolledStudents := k.enrolledStudents + 1 } ∧
              findStudent (enrollStudent st cid sid).2 sid =
                some { s with courses := s.courses ++ [cid] }))))) :=
  enrollStudent_cases st cid sid

/-- C4 witness: the success clause (and thereby the whole conjunction)
evaluated on a concrete enrollment satisfying every precondition. -/
theorem enroll_student_spec_witness :
    (enrollStudent enrollWitnessStore 2 1).1 = .ok "Student enrolled successfully" ∧
    findCourse (enrollStudent enrollWitnessStore 2 1).2 2 =
      some ⟨2, 1, "Adv", "CS201", 10, 1, [1]⟩ ∧
    findStudent (enrollStudent enrollWitnessStore 2 1).2 1 =
      some ⟨1, "CS1", "a@x.com", 1, 1, [1, 2]⟩ :=
  (((((enroll_student_spec enrollWitnessStore 2 1).2
      ⟨2, 1, "Adv", "CS201", 10, 0, [1]⟩ (by decide)).2 (by decide)).2
      ⟨1, "CS1", "a@x.com", 1, 1, [1]⟩ (by decide)).2 (by decide)).2 (by decide) (by decide)

/-- C3 (amended): an unresolvable student id yields NotFound and no
change; deleting an existing student (whose class and department resolve
with positive counters) succeeds, removes the student document,
decrements the class and department counters by one through validated
saves, and decrements every referenced course counter by one through
`$inc` with no validators and no floor — so a course counter can go
negative, contrary to the floor-at-zero wording of the claim. -/
theorem delete_student_spec (st : Store) (sid : Nat) :
    (findStudent st sid = none → deleteStudent st sid = (.notFound "Student not found", st)) ∧
    (∀ s c d, findStudent st sid = some s →
      findClass st s.classId = some c → 1 ≤ c.currentStrength →
      findDept st s.deptId = some d → 1 ≤ d.totalStudents →
      (deleteStudent st sid).1 = .ok "Student deleted successfully" ∧
      findStudent (deleteStudent st sid).2 sid = none ∧
      findClass (deleteStudent st sid).2 s.classId =
        some { c with currentStrength := c.currentStrength - 1 } ∧
      findDept (deleteStudent st sid).2 s.deptId =
        some { d with totalStudents := d.totalStudents - 1 } ∧
      (∀ kid k, findCourse st kid = some k →
        findCourse (deleteStudent st sid).2 kid =
          some { k with enrolledStudents :=
            k.enrolledStudents - (if s.courses.contains kid then 1 else 0) })) := by
  constructor
  · intro hnone
    unfold deleteStudent
    rw [hnone]
  · intro s c d hs hc hcpos hd hdpos
    have hcid : c.id = s.classId := by
      simpa using List.find?_some
        (show st.classes.find? (fun x => x.id == s.classId) = some c from hc)
    have hdid : d.id = s.deptId := by
      simpa using List.find?_some
        (show st.departments.find? (fun x => x.id == s.deptId) = some d from hd)
    have hccond : (0:Int) ≤ c.currentStrength - 1 := by omega
    have hdcond : (0:Int) ≤ d.totalStudents - 1 := by omega
    have hcB : st.classes.find? (fun x => x.id == c.id) = some c := by
      rw [hcid]; exact hc
    have hdB : st.departments.find? (fun x => x.id == d.id) = some d := by
      rw [hdid]; exact hd
    unfold deleteStudent
    rw [hs]
    simp only [hc, saveClass, if_pos hccond, findDept_set_classes, hd, saveDept,
      if_pos hdcond, incEnrolledMany]
    by_cases hlen : s.courses.length > 0
    · simp only [if_pos hlen]
      refine ⟨trivial, ?_, ?_, ?_, ?_⟩
      · show (st.students.filter (fun x => x.id != sid)).find? (fun x => x.id == sid) = none
        exact find?_filter_erased (fun x : StudentDoc => x.id) st.students sid
      · rw [← hcid]
        show (st.classes.map (fun x =>
            if x.id == ({ c with currentStrength := c.currentStrength - 1 } : ClassDoc).id then
              { c with currentStrength := c.currentStrength - 1 } else x)).find?
            (fun x => x.id == c.id) = some { c with currentStrength := c.currentStrength - 1 }
        exact find?_replace_self (fun x : ClassDoc => x.id) st.classes c.id
          { c with currentStrength := c.currentStrength - 1 } rfl c hcB
      · rw [← hdid]
        show (st.departments.map (fun x =>
            if x.id == ({ d with totalStudents := d.totalStudents - 1 } : DeptDoc).id then
              { d with totalStudents := d.totalStudents - 1 } else x)).find?
            (fun x => x.id == d.id) = some { d with totalStudents := d.totalStudents - 1 }
        exact find?_replace_self (fun x : DeptDoc => x.id) st.departments d.id
          { d with totalStudents := d.totalStudents - 1 } rfl d hdB
      · intro kid k hk
        have hk2 : st.courses.find? (fun x => x.id == kid) = some k := hk
        have hkid2 : k.id = kid := by simpa using List.find?_some hk2
        show (st.courses.map (fun x =>
            if s.courses.contains x.id then
              { x with enrolledStudents := x.enrolledStudents + (-1) } else x)).find?
            (fun x => x.id == kid) = some { k with enrolledStudents :=
              k.enrolledStudents - (if s.courses.contains kid then 1 else 0) }
        have hfind2 : (st.courses.map (fun x =>
            if s.courses.contains x.id then
              { x with enrolledStudents := x.enrolledStudents + (-1) } else x)).find?
            (fun x => x.id == kid) = some (if s.courses.contains k.id then
              { k with enrolledStudents := k.enrolledStudents + (-1) } else k) := by
          rw [find?_map_keyed (fun x : CourseDoc => x.id) _
            (by intro x; dsimp only; split <;> rfl) st.courses kid, hk2]
          rfl
        rw [hfind2]
        cases hcont : s.courses.contains kid with
        | true =>
          rw [if_pos (show (s.courses.contains k.id) = true by rw [hkid2]; exact hcont)]
          simp only [if_pos rfl, Option.some.injEq, CourseDoc.mk.injEq]
          refine ⟨trivial, trivial, trivial, trivial, trivial, ?_, trivial⟩
          simp only [if_pos trivial]
          omega
        | false =>
          rw [if_neg (show ¬ ((s.courses.contains k.id) = true) by rw [hkid2, hcont]; simp)]
          simp
    · simp only [if_neg hlen]
      have hnil : s.courses = [] := by
        cases hsc : s.courses with
        | nil => rfl
        | cons a l => rw [hsc] at hlen; simp at hlen
      refine ⟨trivial, ?_, ?_, ?_, ?_⟩
      · show (st.students.filter (fun x => x.id != sid)).find? (fun x => x.id == sid) = none
        exact find?_filter_erased (fun x : StudentDoc => x.id) st.students sid
      · rw [← hcid]
        show (st.classes.map (fun x =>
            if x.id == ({ c with currentStrength := c.currentStrength - 1 } : ClassDoc).id then
              { c with currentStrength := c.currentStrength - 1 } else x)).find?
            (fun x => x.id == c.id) = some { c with currentStrength := c.currentStrength - 1 }
        exact find?_replace_self (fun x : ClassDoc => x.id) st.classes c.id
          { c with currentStrength := c.currentStrength - 1 } rfl c hcB
      · rw [← hdid]
        show (st.departments.map (fun x =>
            if x.id == ({ d with totalStudents := d.totalStudents - 1 } : DeptDoc).id then
              { d with totalStudents := d.totalStudents - 1 } else x)).find?
            (fun x => x.id == d.id) = some { d with totalStudents := d.totalStudents - 1 }
        exact find?_replace_self (fun x : DeptDoc => x.id) st.departments d.id
          { d with totalStudents := d.totalStudents - 1 } rfl d hdB
      · intro kid k hk
        show st.courses.find? (fun x => x.id == kid) = some { k with enrolledStudents :=
          k.enrolledStudents - (if s.courses.contains kid then 1 else 0) }
        rw [hnil]
        simpa [findCourse] using hk

/-- C3 witness: the existing-student clause evaluated on a concrete
consistent store. -/
theorem delete_student_spec_witness :
    (deleteStudent roundTripStore 1).1 = .ok "Student deleted successfully" ∧
    findStudent (deleteStudent roundTripStore 1).2 1 = none ∧
    findClass (deleteStudent roundTripStore 1).2 1 = some ⟨1, 1, 10, 0⟩ ∧
    findDept (deleteStudent roundTripStore 1).2 1 = some ⟨1, 0⟩ ∧
    findCourse (deleteStudent roundTripStore 1).2 1 =
      some ⟨1, 1, "Intro", "CS101", 5, 0, []⟩ := by
  have h := (delete_student_spec roundTripStore 1).2 ⟨1, "CS1", "a@x.com", 1, 1, [1]⟩
    ⟨1, 1, 10, 1⟩ ⟨1, 1⟩ (by decide) (by decide) (by decide) (by decide) (by decide)
  exact ⟨h.1, h.2.1, h.2.2.1, h.2.2.2.1,
    h.2.2.2.2 1 ⟨1, 1, "Intro", "CS101", 5, 1, []⟩ (by decide)⟩

/-- Filtering an id out of a list makes contains false. -/
theorem contains_filter_self_false (l : List Nat) (j : Nat) :
    (l.filter (fun c => c != j)).contains j = false := by
  cases hc : (l.filter (fun c => c != j)).contains j
  · rfl
  · exfalso
    simp at hc

/-- Case analysis of withdrawStudent, shared by the theorems below. -/
theorem withdrawStudent_cases (st : Store) (cid sid : Nat) :
    (findCourse st cid = none → withdrawStudent st cid sid = (.notFound "Course not found", st)) ∧
    (∀ k, findCourse st cid = some k →
      (findStudent st sid = none →
        withdrawStudent st cid sid = (.notFound "Student not found", st)) ∧
      (∀ s, findStudent st sid = some s →
        (s.courses.contains cid = false →
          withdrawStudent st cid sid = (.badRequest "Student is not enrolled in this course", st)) ∧
        (s.courses.contains cid = true →
          (withdrawStudent st cid sid).1 = .ok "Student withdrawn successfully" ∧
          findCourse (withdrawStudent st cid sid).2 cid =
            some { k with enrolledStudents := max 0 (k.enrolledStudents - 1) } ∧
          findStudent (withdrawStudent st cid sid).2 sid =
            some { s with courses := s.courses.filter (fun c => c != cid) }))) := by
  constructor
  · intro hnone
    unfold withdrawStudent
    rw [hnone]
  · intro k hk
    have hkid : k.id = cid := by
      simpa using List.find?_some (show st.courses.find? (fun x => x.id == cid) = some k from hk)
    constructor
    · intro hsnone
      unfold withdrawStudent
      rw [hk]
      simp only [hsnone]
    · intro s hs
      have hsid : s.id = sid := by
        simpa using List.find?_some (show st.students.find? (fun x => x.id == sid) = some s from hs)
      constructor
      · intro hnc
        have hnc2 : (!(s.courses.contains cid)) = true := by rw [hnc]; rfl
        unfold withdrawStudent
        rw [hk]
        simp only [hs, if_pos hnc2]
      · intro hcont
        have hnc2 : ¬ ((!(s.courses.contains cid)) = true) := by rw [hcont]; simp
        have hmaxpos : (0:Int) ≤ max 0 (k.enrolledStudents - 1) := le_max_left 0 _
        unfold withdrawStudent
        rw [hk]
        simp only [hs, if_neg hnc2, saveCourse, if_pos hmaxpos]
        refine ⟨by trivial, ?_, ?_⟩
        · have hkB : st.courses.find? (fun x => x.id == k.id) = some k := by
            rw [hkid]; exact hk
          rw [← hkid]
          exact find?_replace_self (fun x : CourseDoc => x.id) st.courses k.id
            { k with enrolledStudents := max 0 (k.enrolledStudents - 1) } rfl k hkB
        · have hsB : st.students.find? (fun x => x.id == s.id) = some s := by
            rw [hsid]; exact hs
          rw [← hsid]
          exact find?_replace_self (fun x : StudentDoc => x.id) st.students s.id
            { s with courses := s.courses.filter (fun c => c != cid) } rfl s hsB

/-- C6: for a course with a positive enrolled counter, a successful
withdraw followed by a successful re-enroll of the same student/course
pair returns enrolledStudents to exactly its pre-withdraw value. -/
theorem withdraw_reenroll_roundtrip (st : Store) (cid sid : Nat) (k : CourseDoc)
    (hk : findCourse st cid = some k) (hpos : 1 ≤ k.enrolledStudents)
    (hwd : (withdrawStudent st cid sid).1.success = true)
    (hen : (enrollStudent (withdrawStudent st cid sid).2 cid sid).1.success = true) :
    ∃ k2, findCourse (enrollStudent (withdrawStudent st cid sid).2 cid sid).2 cid = some k2 ∧
      k2.enrolledStudents = k.enrolledStudents := by
  cases hfs : findStudent st sid with
  | none =>
    rw [((withdrawStudent_cases st cid sid).2 k hk).1 hfs] at hwd
    simp [Resp.success] at hwd
  | some s =>
    cases hcont : s.courses.contains cid with
    | false =>
      rw [(((withdrawStudent_cases st cid sid).2 k hk).2 s hfs).1 hcont] at hwd
      simp [Resp.success] at hwd
    | true =>
      obtain ⟨hr, hc2, hs2⟩ := (((withdrawStudent_cases st cid sid).2 k hk).2 s hfs).2 hcont
      by_cases hfull : k.maxStudents ≤ max 0 (k.enrolledStudents - 1)
      · rw [((enrollStudent_cases (withdrawStudent st cid sid).2 cid sid).2 _ hc2).1
          hfull] at hen
        simp [Resp.success] at hen
      · have hnf : ({ k with enrolledStudents := max 0 (k.enrolledStudents - 1) } :
            CourseDoc).enrolledStudents <
            ({ k with enrolledStudents := max 0 (k.enrolledStudents - 1) } :
              CourseDoc).maxStudents := by
          dsimp only
          omega
        have hnocont : ({ s with courses := s.courses.filter (fun c => c != cid) } :
            StudentDoc).courses.contains cid = false := by
          dsimp only
          exact contains_filter_self_false s.courses cid
        cases hpre : ({ k with enrolledStudents := max 0 (k.enrolledStudents - 1) } :
            CourseDoc).prerequisites.all
            (fun p => ({ s with courses := s.courses.filter (fun c => c != cid) } :
              StudentDoc).courses.contains p) with
        | false =>
          rw [(((((enrollStudent_cases (withdrawStudent st cid sid).2 cid sid).2 _ hc2).2
            hnf).2 _ hs2).2 hnocont).1 hpre] at hen
          simp [Resp.success] at hen
        | true =>
          obtain ⟨hr2, hcF, hsF⟩ := (((((enrollStudent_cases
            (withdrawStudent st cid sid).2 cid sid).2 _ hc2).2 hnf).2 _ hs2).2 hnocont).2
            hpre (by dsimp only; exact le_max_left 0 _)
          refine ⟨_, hcF, ?_⟩
          dsimp only
          have hmax : max 0 (k.enrolledStudents - 1) = k.enrolledStudents - 1 :=
            max_eq_right (by omega)
          omega


/-- C6 witness: the round trip evaluated on a concrete store. -/
theorem withdraw_reenroll_roundtrip_witness :
    ∃ k2, findCourse
        (enrollStudent (withdrawStudent roundTripStore 1 1).2 1 1).2 1 = some k2 ∧
      k2.enrolledStudents = (1 : Int) :=
  withdraw_reenroll_roundtrip roundTripStore 1 1 ⟨1, 1, "Intro", "CS101", 5, 1, []⟩
    (by decide) (by decide) (by decide) (by decide)

/-- The bulk loop yields exactly one outcome per draft. -/
theorem bulkLoop_length (st : Store) (ds : List StudentDraft) :
    (bulkLoop st ds).1.length = ds.length := by
  induction ds generalizing st with
  | nil => rfl
  | cons d ds ih => simp [bulkLoop, ih]

/-- Successes and failures partition a list of outcomes. -/
theorem count_true_add_count_false (l : List Bool) :
    l.count true + l.count false = l.length := by
  induction l with
  | nil => rfl
  | cons b bs ih =>
    cases b <;> simp [List.count_cons] <;> omega

/-- C7: batches above 100 drafts are rejected wholesale; any other batch
is processed draft by draft into a per-item success/error list whose
successes and failures add up to the batch size (no single bad item fails
the batch); and on the concrete 2-valid-plus-1-duplicate batch the
response reports 2 successes and 1 error with exactly the two valid
students persisted. -/
theorem bulk_create_spec (st : Store) (drafts : List StudentDraft) :
    (drafts.length > 100 →
      bulkCreateStudents st drafts =
        (.rejected "Cannot process more than 100 students at once", st)) ∧
    (drafts ≠ [] → drafts.length ≤ 100 →
      ∃ outcomes, bulkCreateStudents st drafts =
        (.processed (outcomes.count true) (outcomes.count false) outcomes,
          (bulkLoop st drafts).2) ∧
        outcomes.length = drafts.length ∧
        outcomes.count true + outcomes.count false = drafts.length) ∧
    (bulkCreateStudents bulkDupStore bulkDupDrafts).1 = .processed 2 1 [true, true, false] ∧
    (bulkCreateStudents bulkDupStore bulkDupDrafts).2.students =
      bulkDupStore.students ++
        [⟨2, "R2", "a2@x.com", 1, 1, []⟩, ⟨3, "R3", "a3@x.com", 1, 1, []⟩] := by
  refine ⟨?_, ?_, by decide, by decide⟩
  · intro hlong
    unfold bulkCreateStudents
    rw [if_neg (by intro h; rw [List.isEmpty_iff] at h; subst h; simp at hlong),
      if_pos hlong]
  · intro hne hle
    refine ⟨(bulkLoop st drafts).1, ?_, bulkLoop_length st drafts, ?_⟩
    · unfold bulkCreateStudents
      rw [if_neg (by rwa [List.isEmpty_iff]), if_neg (by omega)]
    · rw [count_true_add_count_false]
      exact bulkLoop_length st drafts


/-- C7 witness: both hypothesis-bearing clauses applied at concrete
batches. -/
theorem bulk_create_spec_witness :
    bulkCreateStudents bulkDupStore (List.replicate 101 ({} : StudentDraft)) =
      (.rejected "Cannot process more than 100 students at once", bulkDupStore) ∧
    (∃ outcomes, bulkCreateStudents bulkDupStore bulkDupDrafts =
      (.processed (outcomes.count true) (outcomes.count false) outcomes,
        (bulkLoop bulkDupStore bulkDupDrafts).2) ∧
      outcomes.length = bulkDupDrafts.length ∧
      outcomes.count true + outcomes.count false = bulkDupDrafts.length) :=
  ⟨(bulk_create_spec bulkDupStore (List.replicate 101 ({} : StudentDraft))).1 (by decide),
   (bulk_create_spec bulkDupStore bulkDupDrafts).2.1 (by decide) (by decide)⟩

/-- An Option-valued traversal that succeeds pointwise succeeds as a
whole. -/
theorem mapM_eq_some_map {α β : Type} (f : α → Option β) (g : α → β) (l : List α)
    (h : ∀ x ∈ l, f x = some (g x)) : l.mapM f = some (l.map g) := by
  induction l with
  | nil => rfl
  | cons a as ih =>
    rw [List.mapM_cons]
    rw [h a (List.mem_cons_self a as)]
    rw [ih (fun x hx => h x (List.mem_cons_of_mem a hx))]
    rfl

/-- The $cond-guarded division of the course statistics equals the
utilization formula of the spec. -/
theorem guarded_div_mul_eq_ratePct (e c : Int) :
    (if c = 0 then 0 else (e : Rat) / (c : Rat)) * 100 = ratePct e c := by
  unfold ratePct
  split
  · simp
  · rfl

/-- A nonempty list of integers bounded below by one sums to at least
one. -/
theorem one_le_sum_int {l : List Int} (hne : l ≠ []) (h : ∀ x ∈ l, 1 ≤ x) :
    1 ≤ l.sum := by
  induction l with
  | nil => exact absurd rfl hne
  | cons a as ih =>
    rw [List.sum_cons]
    have ha := h a (List.mem_cons_self a as)
    cases as with
    | nil => simpa using ha
    | cons b bs =>
      have := ih (by simp) (fun x hx => h x (List.mem_cons_of_mem a hx))
      omega

/-- C8: both statistics reports are pure reads; on the empty store each
returns the zeroed structures instead of failing; under the schema bound
capacity ≥ 1 the class report always succeeds and its overallUtilization
and every department utilizationRate equal enrolled/capacity*100 (zero on
a zero denominator), and the course report's enrollment rates equal the
same formula unconditionally. -/
theorem stats_pure_and_rates (st : Store) :
    (getClassStats ⟨[], [], [], []⟩ =
      some { overview := zeroClassOverview, departmentWise := [] }) ∧
    (getCourseStats ⟨[], [], [], []⟩ =
      { overview := zeroCourseOverview, departmentWise := [] }) ∧
    ((∀ c ∈ st.classes, 1 ≤ c.capacity) →
      ∃ r, getClassStats st = some r ∧
        r.overview.overallUtilization =
          ratePct ((st.classes.map (fun c => c.currentStrength)).sum)
            ((st.classes.map (fun c => c.capacity)).sum) ∧
        ∀ e ∈ r.departmentWise,
          e.utilizationRate = ratePct e.totalStudents e.totalCapacity) ∧
    ((getCourseStats st).overview.enrollmentRate =
      ratePct ((st.courses.map (fun c => c.enrolledStudents)).sum)
        ((st.courses.map (fun c => c.maxStudents)).sum) ∧
      ∀ e ∈ (getCourseStats st).departmentWise,
        e.enrollmentRate = ratePct e.totalEnrolled e.totalCapacity) := by
  refine ⟨by rfl, by rfl, ?_, ?_, ?_⟩
  · intro hcap
    have hkey : ∀ d ∈ st.departments.filter
        (fun d => st.classes.any (fun c => c.deptId == d.id)),
        1 ≤ ((st.classes.filter (fun c => c.deptId == d.id)).map (fun c => c.capacity)).sum := by
      intro d hd
      have hany : st.classes.any (fun c => c.deptId == d.id) = true := (List.mem_filter.1 hd).2
      obtain ⟨c0, hc0, hc0d⟩ := List.any_eq_true.1 hany
      have hne : st.classes.filter (fun c => c.deptId == d.id) ≠ [] := by
        intro hnil
        have hmem : c0 ∈ st.classes.filter (fun c => c.deptId == d.id) :=
          List.mem_filter.2 ⟨hc0, hc0d⟩
        rw [hnil] at hmem
        simp at hmem
      apply one_le_sum_int
      · simpa using hne
      · intro x hx
        obtain ⟨c2, hc2, hx2⟩ := List.mem_map.1 hx
        rw [← hx2]
        exact hcap c2 (List.mem_filter.1 hc2).1
    have hdw : deptWiseClassAgg st = some ((st.departments.filter
        (fun d => st.classes.any (fun c => c.deptId == d.id))).map (fun d =>
          ({ deptId := d.id
             classCount := (st.classes.filter (fun c => c.deptId == d.id)).length
             totalCapacity :=
               ((st.classes.filter (fun c => c.deptId == d.id)).map (fun c => c.capacity)).sum
             totalStudents :=
               ((st.classes.filter (fun c => c.deptId == d.id)).map
                 (fun c => c.currentStrength)).sum
             utilizationRate :=
               (((((st.classes.filter (fun c => c.deptId == d.id)).map
                   (fun c => c.currentStrength)).sum : Int) : Rat) /
                 ((((st.classes.filter (fun c => c.deptId == d.id)).map
                   (fun c => c.capacity)).sum : Int) : Rat)) * 100 } : DeptClassEntry))) := by
      unfold deptWiseClassAgg
      apply mapM_eq_some_map
      intro d hd
      dsimp only
      rw [if_neg (by have := hkey d hd; omega)]
    have hdwprop : ∀ e ∈ ((st.departments.filter
        (fun d => st.classes.any (fun c => c.deptId == d.id))).map (fun d =>
          ({ deptId := d.id
             classCount := (st.classes.filter (fun c => c.deptId == d.id)).length
             totalCapacity :=
               ((st.classes.filter (fun c => c.deptId == d.id)).map (fun c => c.capacity)).sum
             totalStudents :=
               ((st.classes.filter (fun c => c.deptId == d.id)).map
                 (fun c => c.currentStrength)).sum
             utilizationRate :=
               (((((st.classes.filter (fun c => c.deptId == d.id)).map
                   (fun c => c.currentStrength)).sum : Int) : Rat) /
                 ((((st.classes.filter (fun c => c.deptId == d.id)).map
                   (fun c => c.capacity)).sum : Int) : Rat)) * 100 } : DeptClassEntry))),
        e.utilizationRate = ratePct e.totalStudents e.totalCapacity := by
      intro e he
      obtain ⟨d, hd, he2⟩ := List.mem_map.1 he
      rw [← he2]
      dsimp only
      unfold ratePct
      rw [if_neg (by have := hkey d hd; omega)]
    cases hemp : st.classes.isEmpty with
    | true =>
      have hnil : st.classes = [] := by
        cases hcl : st.classes
        · rfl
        · rw [hcl] at hemp; simp [List.isEmpty] at hemp
      refine ⟨{ overview := zeroClassOverview, departmentWise := [] }, ?_, ?_, by simp⟩
      · unfold getClassStats classOverviewAgg deptWiseClassAgg
        rw [hnil]
        simp
        rfl
      · rw [hnil]
        simp [zeroClassOverview, ratePct]
    | false =>
      have hnemp : ¬ (st.classes.isEmpty = true) := by rw [hemp]; simp
      have hne : st.classes ≠ [] := by
        intro hnil
        rw [hnil] at hemp
        simp [List.isEmpty] at hemp
      have hcapsum : 1 ≤ (st.classes.map (fun c => c.capacity)).sum := by
        apply one_le_sum_int
        · simpa using hne
        · intro x hx
          obtain ⟨c2, hc2, hx2⟩ := List.mem_map.1 hx
          rw [← hx2]
          exact hcap c2 hc2
      have hov : classOverviewAgg st.classes = some
          { totalClasses := st.classes.length
            totalCapacity := (st.classes.map (fun c => c.capacity)).sum
            totalStudents := (st.classes.map (fun c => c.currentStrength)).sum
            overallUtilization :=
              ((((st.classes.map (fun c => c.currentStrength)).sum : Int) : Rat) /
                (((st.classes.map (fun c => c.capacity)).sum : Int) : Rat)) * 100 } := by
        unfold classOverviewAgg
        rw [if_neg hnemp, if_neg (by omega)]
      have hgo : getClassStats st = some
          { overview :=
              { totalClasses := st.classes.length
                totalCapacity := (st.classes.map (fun c => c.capacity)).sum
                totalStudents := (st.classes.map (fun c => c.currentStrength)).sum
                overallUtilization :=
                  ((((st.classes.map (fun c => c.currentStrength)).sum : Int) : Rat) /
                    (((st.classes.map (fun c => c.capacity)).sum : Int) : Rat)) * 100 }
            departmentWise := (st.departments.filter
              (fun d => st.classes.any (fun c => c.deptId == d.id))).map (fun d =>
                ({ deptId := d.id
                   classCount := (st.classes.filter (fun c => c.deptId == d.id)).length
                   totalCapacity :=
                     ((st.classes.filter (fun c => c.deptId == d.id)).map
                       (fun c => c.capacity)).sum
                   totalStudents :=
                     ((st.classes.filter (fun c => c.deptId == d.id)).map
                       (fun c => c.currentStrength)).sum
                   utilizationRate :=
                     (((((st.classes.filter (fun c => c.deptId == d.id)).map
                         (fun c => c.currentStrength)).sum : Int) : Rat) /
                       ((((st.classes.filter (fun c => c.deptId == d.id)).map
                         (fun c => c.capacity)).sum : Int) : Rat)) * 100 } : DeptClassEntry)) } := by
        unfold getClassStats
        rw [hov, hdw]
        rfl
      refine ⟨_, hgo, ?_, ?_⟩
      · dsimp only
        unfold ratePct
        rw [if_neg (by omega)]
      · exact hdwprop
  · unfold getCourseStats courseOverviewAgg
    cases hemp : st.courses.isEmpty with
    | true =>
      have hnil : st.courses = [] := by
        cases hcl : st.courses
        · rfl
        · rw [hcl] at hemp; simp [List.isEmpty] at hemp
      rw [hnil]
      simp [zeroCourseOverview, ratePct]
    | false =>
      rw [if_neg (show ¬ (false = true) by simp)]
      dsimp only
      exact guarded_div_mul_eq_ratePct _ _
  · intro e he
    unfold getCourseStats deptWiseCourseAgg at he
    dsimp only at he
    obtain ⟨d, hd, he2⟩ := List.mem_map.1 he
    rw [← he2]
    dsimp only
    exact guarded_div_mul_eq_ratePct _ _


/-- C8 witness: the capacity-hypothesis clause applied at a concrete
store. -/
theorem stats_pure_and_rates_witness :
    ∃ r, getClassStats referencedStore = some r ∧
      r.overview.overallUtilization =
        ratePct ((referencedStore.classes.map (fun c => c.currentStrength)).sum)
          ((referencedStore.classes.map (fun c => c.capacity)).sum) ∧
      ∀ e ∈ r.departmentWise, e.utilizationRate = ratePct e.totalStudents e.totalCapacity :=
  (stats_pure_and_rates referencedStore).2.2.1 (by decide)

/-- Every member of a list of naturals is bounded by the foldr max. -/
theorem le_foldr_max (l : List Nat) (x : Nat) (hx : x ∈ l) : x ≤ l.foldr max 0 := by
  induction l with
  | nil => simp at hx
  | cons a as ih =>
    rw [List.foldr_cons]
    rcases List.mem_cons.1 hx with h | h
    · subst h
      exact le_max_left x _
    · exact le_trans (ih h) (le_max_right a _)

/-- With unique course ids, a prerequisite list that resolves to exactly
as many stored courses as it has entries cannot mention the fresh id of a
course being created: the resolved ids are all below it. -/
theorem fresh_not_mem_prereqs (st : Store) (ps : List Nat)
    (hnd : (st.courses.map (fun c => c.id)).Nodup)
    (hlen : (st.courses.filter (fun c => ps.contains c.id)).length = ps.length) :
    freshCourseId st ∉ ps := by
  intro hmem
  have hFsub : List.Sublist
      ((st.courses.filter (fun c => ps.contains c.id)).map (fun c => c.id))
      (st.courses.map (fun c => c.id)) :=
    (List.filter_sublist st.courses).map (fun c => c.id)
  have hFnd : ((st.courses.filter (fun c => ps.contains c.id)).map (fun c => c.id)).Nodup :=
    hnd.sublist hFsub
  have hsub : ((st.courses.filter (fun c => ps.contains c.id)).map
      (fun c => c.id)).toFinset ⊆ ps.toFinset.erase (freshCourseId st) := by
    intro x hx
    rw [List.mem_toFinset] at hx
    obtain ⟨c2, hc2, hx2⟩ := List.mem_map.1 hx
    have hc2f := List.mem_filter.1 hc2
    have hxps : x ∈ ps := by
      rw [← hx2]
      simpa using hc2f.2
    have hxlt : x < freshCourseId st := by
      have hle : c2.id ≤ (st.courses.map (fun c => c.id)).foldr max 0 :=
        le_foldr_max _ _ (List.mem_map_of_mem (fun c => c.id) hc2f.1)
      rw [← hx2]
      unfold freshCourseId
      omega
    exact Finset.mem_erase.2 ⟨by omega, List.mem_toFinset.2 hxps⟩
  have hcard := Finset.card_le_card hsub
  rw [List.toFinset_card_of_nodup hFnd] at hcard
  rw [List.length_map] at hcard
  rw [hlen] at hcard
  have hcerase : (ps.toFinset.erase (freshCourseId st)).card = ps.toFinset.card - 1 :=
    Finset.card_erase_of_mem (List.mem_toFinset.2 hmem)
  have hple : ps.toFinset.card ≤ ps.length := ps.toFinset_card_le
  have hppos : 0 < ps.toFinset.card :=
    Finset.card_pos.2 ⟨freshCourseId st, List.mem_toFinset.2 hmem⟩
  omega

/-- C9: on a store with unique course ids where no course lists itself
as a prerequisite, every successful createCourse and updateCourse
preserves that invariant — update rejects a self-reference explicitly,
and create only accepts prerequisites that resolve to already-existing
courses, which the fresh id cannot. -/
theorem prereq_self_free_preserved (st : Store)
    (hwf : (st.courses.map (fun c => c.id)).Nodup) (hinv : prereqSelfFree st) :
    (∀ b, (createCourse st b).1.success = true → prereqSelfFree (createCourse st b).2) ∧
    (∀ i p, (updateCourse st i p).1.success = true → prereqSelfFree (updateCourse st i p).2) := by
  constructor
  · intro b hsucc
    unfold createCourse at hsucc ⊢
    cases hdup : st.courses.any (fun c => c.courseCode == sUp b.courseCode) with
    | true =>
      rw [if_pos hdup] at hsucc
      simp [Resp.success] at hsucc
    | false =>
      rw [if_neg (by rw [hdup]; simp)] at hsucc
      rw [if_neg (by simp : ¬ (false = true))]
      cases hdept : findDept st b.deptId with
      | none =>
        rw [hdept] at hsucc
        simp [Resp.success] at hsucc
      | some dept =>
        rw [hdept] at hsucc
        dsimp only at hsucc ⊢
        cases hmiss : (b.prerequisites.length > 0 &&
            (st.courses.filter (fun c => b.prerequisites.contains c.id)).length !=
              b.prerequisites.length) with
        | true =>
          rw [if_pos hmiss] at hsucc
          simp [Resp.success] at hsucc
        | false =>
          rw [if_neg (by rw [hmiss]; simp)] at hsucc
          rw [if_neg (by simp : ¬ (false = true))]
          intro k hk
          rcases List.mem_append.1 hk with hmem | hmem
          · exact hinv k hmem
          · have hknew : k = ⟨freshCourseId st, b.deptId, b.courseName, sUp b.courseCode,
                b.maxStudents, 0, b.prerequisites⟩ := by
              simpa using hmem
            subst hknew
            dsimp only
            intro hcontains
            rw [Bool.and_eq_false_iff] at hmiss
            rcases hmiss with hz | hne
            · have hnil2 : b.prerequisites = [] := by
                simpa using hz
              rw [hnil2] at hcontains
              simp at hcontains
            · have hlen : (st.courses.filter
                  (fun c => b.prerequisites.contains c.id)).length =
                  b.prerequisites.length := by
                simpa using hne
              exact fresh_not_mem_prereqs st b.prerequisites hwf hlen
                (by simpa using hcontains)
  · intro i p hsucc
    cases hfind : findCourse st i with
    | none =>
      unfold updateCourse at hsucc
      rw [hfind] at hsucc
      simp [Resp.success] at hsucc
    | some course =>
      have hcid : course.id = i := by
        simpa using List.find?_some
          (show st.courses.find? (fun x => x.id == i) = some course from hfind)
      unfold updateCourse at hsucc ⊢
      rw [hfind] at hsucc ⊢
      dsimp only at hsucc ⊢
      split at hsucc
      · simp [Resp.success] at hsucc
      · split at hsucc
        · simp [Resp.success] at hsucc
        · split at hsucc
          · simp [Resp.success] at hsucc
          · split at hsucc
            · simp [Resp.success] at hsucc
            · rename_i h1 h2 h3 h4
              rw [if_neg h1, if_neg h2, if_neg h3, if_neg h4]
              intro k hk
              rcases mem_replace_cases (fun x : CourseDoc => x.id) hk with hke | hpair
              · subst hke
                dsimp only
                cases hps : p.prerequisites with
                | none =>
                  simp only [hps, Option.getD_none]
                  exact hinv course (List.mem_of_find?_eq_some hfind)
                | some ps =>
                  simp only [hps, Option.getD_some]
                  intro hcontains
                  rw [hps] at h4
                  have hpsi : ps.contains i = true := by
                    rw [hcid] at hcontains
                    exact hcontains
                  exact h4 (by simpa using hpsi)
              · exact hinv k hpair.1


/-- C9 witness: both clauses applied on a concrete store, one successful
create with a resolvable prerequisite and one successful update. -/
theorem prereq_self_free_preserved_witness :
    prereqSelfFree (createCourse courseWitnessStore ⟨"New", "CS301", 1, 10, [1]⟩).2 ∧
    prereqSelfFree (updateCourse courseWitnessStore 2 { prerequisites := some [1] }).2 :=
  ⟨(prereq_self_free_preserved courseWitnessStore (by decide) (by decide)).1
      ⟨"New", "CS301", 1, 10, [1]⟩ (by decide),
   (prereq_self_free_preserved courseWitnessStore (by decide) (by decide)).2
      2 { prerequisites := some [1] } (by decide)⟩

/-- Appending one element adds its predicate contribution to a count. -/
theorem countP_append_single {α : Type} (l : List α) (a : α) (p : α → Bool) :
    (l ++ [a]).countP p = l.countP p + (if p a then 1 else 0) := by
  rw [List.countP_append, List.countP_cons]
  simp [List.countP_nil]

/-- A successful createStudent keeps the three counter invariants: the new
student is appended and each referenced counter is incremented once. -/
theorem createStudent_preserves (st : Store) (hcons : countersConsistent st)
    (b : StudentBody) (hsucc : (createStudent st b).1.success = true) :
    countersConsistent (createStudent st b).2 := by
  obtain ⟨hcls, hdep, hcrs⟩ := hcons
  unfold createStudent at hsucc ⊢
  cases hroll : st.students.any (fun s => s.rollNumber == b.rollNumber) with
  | true =>
    rw [if_pos hroll] at hsucc
    simp [Resp.success] at hsucc
  | false =>
  rw [if_neg (by rw [hroll]; simp)] at hsucc
  rw [if_neg (by simp : ¬ (false = true))]
  cases hemail : st.students.any (fun s => s.email == sLo b.email) with
  | true =>
    rw [if_pos hemail] at hsucc
    simp [Resp.success] at hsucc
  | false =>
  rw [if_neg (by rw [hemail]; simp)] at hsucc
  rw [if_neg (by simp : ¬ (false = true))]
  cases hfind : findClass st b.classId with
  | none =>
    rw [hfind] at hsucc
    simp [Resp.success] at hsucc
  | some cls =>
  rw [hfind] at hsucc
  have hclsid : cls.id = b.classId := by
    simpa using List.find?_some
      (show st.classes.find? (fun x => x.id == b.classId) = some cls from hfind)
  have hclsmem : cls ∈ st.classes :=
    List.mem_of_find?_eq_some
      (show st.classes.find? (fun x => x.id == b.classId) = some cls from hfind)
  dsimp only at hsucc ⊢
  by_cases hfull : cls.capacity ≤ cls.currentStrength
  · rw [if_pos hfull] at hsucc
    simp [Resp.success] at hsucc
  rw [if_neg hfull] at hsucc ⊢
  cases hdept : findDept st b.deptId with
  | none =>
    rw [hdept] at hsucc
    simp [Resp.success] at hsucc
  | some dept =>
  rw [hdept] at hsucc
  have hdeptid : dept.id = b.deptId := by
    simpa using List.find?_some
      (show st.departments.find? (fun x => x.id == b.deptId) = some dept from hdept)
  have hdeptmem : dept ∈ st.departments :=
    List.mem_of_find?_eq_some
      (show st.departments.find? (fun x => x.id == b.deptId) = some dept from hdept)
  dsimp only at hsucc ⊢
  cases hmiss : (b.courses.length > 0 &&
      (st.courses.filter (fun c => b.courses.contains c.id)).length != b.courses.length) with
  | true =>
    rw [if_pos hmiss] at hsucc
    simp [Resp.success] at hsucc
  | false =>
  rw [if_neg (by rw [hmiss]; simp)] at hsucc
  rw [if_neg (by simp : ¬ (false = true))]
  cases hfullc : (b.courses.length > 0 &&
      ((st.courses.filter (fun c => b.courses.contains c.id)).filter
        (fun c => c.maxStudents ≤ c.enrolledStudents)).length > 0) with
  | true =>
    rw [if_pos hfullc] at hsucc
    simp [Resp.success] at hsucc
  | false =>
  rw [if_neg (by rw [hfullc]; simp)] at hsucc
  rw [if_neg (by simp : ¬ (false = true))]
  have hcsnn : (0:Int) ≤ cls.currentStrength := by
    have := hcls cls hclsmem
    omega
  rw [saveClass] at hsucc ⊢
  rw [if_pos (show (0:Int) ≤ cls.currentStrength + 1 by omega)] at hsucc ⊢
  dsimp only at hsucc ⊢
  have hdnn : (0:Int) ≤ dept.totalStudents := by
    have := hdep dept hdeptmem
    omega
  rw [saveDept] at hsucc ⊢
  rw [if_pos (show (0:Int) ≤ dept.totalStudents + 1 by omega)] at hsucc ⊢
  dsimp only at hsucc ⊢
  clear hsucc
  have hrefsC : ∀ i, classRefs (st.students ++
      [(⟨freshStudentId st, sUp b.rollNumber, sLo b.email, b.classId, b.deptId,
         b.courses⟩ : StudentDoc)]) i =
      classRefs st.students i + (if (b.classId == i) = true then 1 else 0) := by
    intro i
    dsimp only [classRefs]
    rw [countP_append_single]
  have hrefsD : ∀ i, deptRefs (st.students ++
      [(⟨freshStudentId st, sUp b.rollNumber, sLo b.email, b.classId, b.deptId,
         b.courses⟩ : StudentDoc)]) i =
      deptRefs st.students i + (if (b.deptId == i) = true then 1 else 0) := by
    intro i
    dsimp only [deptRefs]
    rw [countP_append_single]
  have hrefsK : ∀ i, courseRefs (st.students ++
      [(⟨freshStudentId st, sUp b.rollNumber, sLo b.email, b.classId, b.deptId,
         b.courses⟩ : StudentDoc)]) i =
      courseRefs st.students i + (if (b.courses.contains i) = true then 1 else 0) := by
    intro i
    dsimp only [courseRefs]
    rw [countP_append_single]
  have hclassesOK : ∀ c2 ∈ st.classes.map (fun x =>
      if x.id == (⟨cls.id, cls.deptId, cls.capacity, cls.currentStrength + 1⟩ : ClassDoc).id then
        (⟨cls.id, cls.deptId, cls.capacity, cls.currentStrength + 1⟩ : ClassDoc) else x),
      c2.currentStrength = ((classRefs (st.students ++
        [(⟨freshStudentId st, sUp b.rollNumber, sLo b.email, b.classId, b.deptId,
           b.courses⟩ : StudentDoc)]) c2.id : Nat) : Int) := by
    intro c2 hc2
    rcases mem_replace_cases (fun x : ClassDoc => x.id) hc2 with hce | hpair
    · subst hce
      rw [hrefsC]
      dsimp only
      have h1 := hcls cls hclsmem
      have hbeq : (b.classId == cls.id) = true := by simp [hclsid]
      rw [hbeq, if_pos rfl]
      push_cast
      omega
    · rw [hrefsC]
      have h1 := hcls c2 hpair.1
      have hbeq : (b.classId == c2.id) = false := by
        have h2 := hpair.2
        dsimp only at h2
        simp only [beq_eq_false_iff_ne, ne_eq] at h2 ⊢
        omega
      rw [hbeq, if_neg (show ¬ (false = true) by simp)]
      simpa using h1
  have hdeptsOK : ∀ d2 ∈ st.departments.map (fun x =>
      if x.id == (⟨dept.id, dept.totalStudents + 1⟩ : DeptDoc).id then
        (⟨dept.id, dept.totalStudents + 1⟩ : DeptDoc) else x),
      d2.totalStudents = ((deptRefs (st.students ++
        [(⟨freshStudentId st, sUp b.rollNumber, sLo b.email, b.classId, b.deptId,
           b.courses⟩ : StudentDoc)]) d2.id : Nat) : Int) := by
    intro d2 hd2
    rcases mem_replace_cases (fun x : DeptDoc => x.id) hd2 with hde | hpair
    · subst hde
      rw [hrefsD]
      dsimp only
      have h1 := hdep dept hdeptmem
      have hbeq : (b.deptId == dept.id) = true := by simp [hdeptid]
      rw [hbeq, if_pos rfl]
      push_cast
      omega
    · rw [hrefsD]
      have h1 := hdep d2 hpair.1
      have hbeq : (b.deptId == d2.id) = false := by
        have h2 := hpair.2
        dsimp only at h2
        simp only [beq_eq_false_iff_ne, ne_eq] at h2 ⊢
        omega
      rw [hbeq, if_neg (show ¬ (false = true) by simp)]
      simpa using h1
  by_cases hblen : b.courses.length > 0
  · rw [if_pos hblen, incEnrolledMany]
    refine ⟨hclassesOK, hdeptsOK, ?_⟩
    intro k2 hk2
    obtain ⟨k, hkmem, hke⟩ := List.mem_map.1 hk2
    rw [← hke]
    have h1 := hcrs k hkmem
    cases hc : b.courses.contains k.id with
    | true =>
      rw [if_pos rfl]
      dsimp only
      rw [hrefsK, hc, if_pos rfl]
      push_cast
      omega
    | false =>
      rw [if_neg (show ¬ (false = true) by simp)]
      rw [hrefsK, hc, if_neg (show ¬ (false = true) by simp)]
      simpa using h1
  · rw [if_neg hblen]
    refine ⟨hclassesOK, hdeptsOK, ?_⟩
    intro k2 hk2
    have h1 := hcrs k2 hk2
    have hnil : b.courses = [] := by
      cases hbc : b.courses
      · rfl
      · rw [hbc] at hblen; simp at hblen
    rw [hrefsK, hnil]
    rw [show (List.contains [] k2.id) = false from rfl,
      if_neg (show ¬ (false = true) by simp)]
    simpa using h1

/-- A successful deleteStudent keeps the three counter invariants: the
student is removed and each referenced counter is decremented once. -/
theorem deleteStudent_preserves (st : Store) (hwf : Store.WF st)
    (hcons : countersConsistent st) (sid : Nat)
    (hsucc : (deleteStudent st sid).1.success = true) :
    countersConsistent (deleteStudent st sid).2 := by
  obtain ⟨hndD, hndC, hndK, hndS⟩ := hwf
  obtain ⟨hcls, hdep, hcrs⟩ := hcons
  unfold deleteStudent at hsucc ⊢
  cases hs : findStudent st sid with
  | none =>
    rw [hs] at hsucc
    simp [Resp.success] at hsucc
  | some s =>
  rw [hs] at hsucc
  dsimp only at hsucc ⊢
  have hsB : st.students.find? (fun x => x.id == sid) = some s := hs
  have hsmem : s ∈ st.students := List.mem_of_find?_eq_some hsB
  have herC : ∀ i, classRefs (st.students.filter (fun x => x.id != sid)) i +
      (if (s.classId == i) = true then 1 else 0) = classRefs st.students i := by
    intro i
    exact countP_erase_key (fun x : StudentDoc => x.id) st.students sid s _ hndS hsB
  have herD : ∀ i, deptRefs (st.students.filter (fun x => x.id != sid)) i +
      (if (s.deptId == i) = true then 1 else 0) = deptRefs st.students i := by
    intro i
    exact countP_erase_key (fun x : StudentDoc => x.id) st.students sid s _ hndS hsB
  have herK : ∀ i, courseRefs (st.students.filter (fun x => x.id != sid)) i +
      (if (s.courses.contains i) = true then 1 else 0) = courseRefs st.students i := by
    intro i
    exact countP_erase_key (fun x : StudentDoc => x.id) st.students sid s _ hndS hsB
  have hKlen : ∀ k2 ∈ st.courses.map (fun c =>
      if s.courses.contains c.id then
        (⟨c.id, c.deptId, c.courseName, c.courseCode, c.maxStudents,
          c.enrolledStudents + (-1), c.prerequisites⟩ : CourseDoc) else c),
      k2.enrolledStudents =
        ((courseRefs (st.students.filter (fun x => x.id != sid)) k2.id : Nat) : Int) := by
    intro k2 hk2
    obtain ⟨k, hkmem, hke⟩ := List.mem_map.1 hk2
    rw [← hke]
    have h1 := hcrs k hkmem
    cases hc2 : s.courses.contains k.id with
    | true =>
      rw [if_pos rfl]
      dsimp only
      have := herK k.id
      rw [hc2, if_pos rfl] at this
      omega
    | false =>
      rw [if_neg (show ¬ (false = true) by simp)]
      have := herK k.id
      rw [hc2, if_neg (show ¬ (false = true) by simp)] at this
      omega
  have hKnil : s.courses = [] → ∀ k2 ∈ st.courses,
      k2.enrolledStudents =
        ((courseRefs (st.students.filter (fun x => x.id != sid)) k2.id : Nat) : Int) := by
    intro hnil k2 hk2
    have h1 := hcrs k2 hk2
    have := herK k2.id
    rw [hnil] at this
    rw [show (List.contains [] k2.id) = false from rfl,
      if_neg (show ¬ (false = true) by simp)] at this
    omega
  cases hc : findClass st s.classId with
  | some c =>
    have hcB : st.classes.find? (fun x => x.id == s.classId) = some c := hc
    have hcid : c.id = s.classId := by simpa using List.find?_some hcB
    have hcmem : c ∈ st.classes := List.mem_of_find?_eq_some hcB
    have hrefge : 1 ≤ classRefs st.students c.id := by
      apply countP_pos_of_mem hsmem
      simp [hcid]
    have hcpos : (0:Int) ≤ c.currentStrength - 1 := by
      have h1 := hcls c hcmem
      omega
    rw [hc] at hsucc
    dsimp only at hsucc ⊢
    unfold saveClass at hsucc ⊢
    rw [if_pos hcpos] at hsucc ⊢
    dsimp only at hsucc ⊢
    have hCf : ∀ x ∈ st.classes.map (fun y =>
        if y.id == (⟨c.id, c.deptId, c.capacity, c.currentStrength - 1⟩ : ClassDoc).id then
          (⟨c.id, c.deptId, c.capacity, c.currentStrength - 1⟩ : ClassDoc) else y),
        x.currentStrength =
          ((classRefs (st.students.filter (fun x => x.id != sid)) x.id : Nat) : Int) := by
      intro x hx
      rcases mem_replace_cases (fun y : ClassDoc => y.id) hx with hxe | hpair
      · subst hxe
        dsimp only
        have h1 := hcls c hcmem
        have := herC c.id
        rw [show (s.classId == c.id) = true by simp [hcid], if_pos rfl] at this
        omega
      · have h1 := hcls x hpair.1
        have := herC x.id
        have hbeq : (s.classId == x.id) = false := by
          have h2 := hpair.2
          dsimp only at h2
          simp only [beq_eq_false_iff_ne, ne_eq] at h2 ⊢
          omega
        rw [hbeq, if_neg (show ¬ (false = true) by simp)] at this
        omega
    dsimp only [findDept] at hsucc ⊢
    cases hd : st.departments.find? (fun x => x.id == s.deptId) with
    | some d =>
      have hdid : d.id = s.deptId := by simpa using List.find?_some hd
      have hdmem : d ∈ st.departments := List.mem_of_find?_eq_some hd
      have hrefgeD : 1 ≤ deptRefs st.students d.id := by
        apply countP_pos_of_mem hsmem
        simp [hdid]
      have hdpos : (0:Int) ≤ d.totalStudents - 1 := by
        have h1 := hdep d hdmem
        omega
      rw [hd] at hsucc
      dsimp only at hsucc ⊢
      unfold saveDept at hsucc ⊢
      rw [if_pos hdpos] at hsucc ⊢
      dsimp only at hsucc ⊢
      have hDf : ∀ x ∈ st.departments.map (fun y =>
          if y.id == (⟨d.id, d.totalStudents - 1⟩ : DeptDoc).id then
            (⟨d.id, d.totalStudents - 1⟩ : DeptDoc) else y),
          x.totalStudents =
            ((deptRefs (st.students.filter (fun x => x.id != sid)) x.id : Nat) : Int) := by
        intro x hx
        rcases mem_replace_cases (fun y : DeptDoc => y.id) hx with hxe | hpair
        · subst hxe
          dsimp only
          have h1 := hdep d hdmem
          have := herD d.id
          rw [show (s.deptId == d.id) = true by simp [hdid], if_pos rfl] at this
          omega
        · have h1 := hdep x hpair.1
          have := herD x.id
          have hbeq : (s.deptId == x.id) = false := by
            have h2 := hpair.2
            dsimp only at h2
            simp only [beq_eq_false_iff_ne, ne_eq] at h2 ⊢
            omega
          rw [hbeq, if_neg (show ¬ (false = true) by simp)] at this
          omega
      by_cases hlen : s.courses.length > 0
      · rw [if_pos hlen, incEnrolledMany]
        exact ⟨hCf, hDf, hKlen⟩
      · rw [if_neg hlen]
        have hnil : s.courses = [] := by
          cases hsc : s.courses
          · rfl
          · rw [hsc] at hlen; simp at hlen
        exact ⟨hCf, hDf, hKnil hnil⟩
    | none =>
      rw [hd] at hsucc
      dsimp only at hsucc ⊢
      have hDn : ∀ x ∈ st.departments,
          x.totalStudents =
            ((deptRefs (st.students.filter (fun x => x.id != sid)) x.id : Nat) : Int) := by
        intro x hx
        have h1 := hdep x hx
        have := herD x.id
        have hbeq : (s.deptId == x.id) = false := by
          have h2 := List.find?_eq_none.1 hd x hx
          simp only [beq_eq_false_iff_ne, ne_eq]
          simp only [beq_iff_eq] at h2
          omega
        rw [hbeq, if_neg (show ¬ (false = true) by simp)] at this
        omega
      by_cases hlen : s.courses.length > 0
      · rw [if_pos hlen, incEnrolledMany]
        exact ⟨hCf, hDn, hKlen⟩
      · rw [if_neg hlen]
        have hnil : s.courses = [] := by
          cases hsc : s.courses
          · rfl
          · rw [hsc] at hlen; simp at hlen
        exact ⟨hCf, hDn, hKnil hnil⟩
  | none =>
    rw [hc] at hsucc
    dsimp only at hsucc ⊢
    have hCn : ∀ x ∈ st.classes,
        x.currentStrength =
          ((classRefs (st.students.filter (fun x => x.id != sid)) x.id : Nat) : Int) := by
      intro x hx
      have h1 := hcls x hx
      have := herC x.id
      have hbeq : (s.classId == x.id) = false := by
        have h2 := List.find?_eq_none.1 hc x hx
        simp only [beq_eq_false_iff_ne, ne_eq]
        simp only [beq_iff_eq] at h2
        omega
      rw [hbeq, if_neg (show ¬ (false = true) by simp)] at this
      omega
    dsimp only [findDept] at hsucc ⊢
    cases hd : st.departments.find? (fun x => x.id == s.deptId) with
    | some d =>
      have hdid : d.id = s.deptId := by simpa using List.find?_some hd
      have hdmem : d ∈ st.departments := List.mem_of_find?_eq_some hd
      have hrefgeD : 1 ≤ deptRefs st.students d.id := by
        apply countP_pos_of_mem hsmem
        simp [hdid]
      have hdpos : (0:Int) ≤ d.totalStudents - 1 := by
        have h1 := hdep d hdmem
        omega
      rw [hd] at hsucc
      dsimp only at hsucc ⊢
      unfold saveDept at hsucc ⊢
      rw [if_pos hdpos] at hsucc ⊢
      dsimp only at hsucc ⊢
      have hDf : ∀ x ∈ st.departments.map (fun y =>
          if y.id == (⟨d.id, d.totalStudents - 1⟩ : DeptDoc).id then
            (⟨d.id, d.totalStudents - 1⟩ : DeptDoc) else y),
          x.totalStudents =
            ((deptRefs (st.students.filter (fun x => x.id != sid)) x.id : Nat) : Int) := by
        intro x hx
        rcases mem_replace_cases (fun y : DeptDoc => y.id) hx with hxe | hpair
        · subst hxe
          dsimp only
          have h1 := hdep d hdmem
          have := herD d.id
          rw [show (s.deptId == d.id) = true by simp [hdid], if_pos rfl] at this
          omega
        · have h1 := hdep x hpair.1
          have := herD x.id
          have hbeq : (s.deptId == x.id) = false := by
            have h2 := hpair.2
            dsimp only at h2
            simp only [beq_eq_false_iff_ne, ne_eq] at h2 ⊢
            omega
          rw [hbeq, if_neg (show ¬ (false = true) by simp)] at this
          omega
      by_cases hlen : s.courses.length > 0
      · rw [if_pos hlen, incEnrolledMany]
        exact ⟨hCn, hDf, hKlen⟩
      · rw [if_neg hlen]
        have hnil : s.courses = [] := by
          cases hsc : s.courses
          · rfl
          · rw [hsc] at hlen; simp at hlen
        exact ⟨hCn, hDf, hKnil hnil⟩
    | none =>
      rw [hd] at hsucc
      dsimp only at hsucc ⊢
      have hDn : ∀ x ∈ st.departments,
          x.totalStudents =
            ((deptRefs (st.students.filter (fun x => x.id != sid)) x.id : Nat) : Int) := by
        intro x hx
        have h1 := hdep x hx
        have := herD x.id
        have hbeq : (s.deptId == x.id) = false := by
          have h2 := List.find?_eq_none.1 hd x hx
          simp only [beq_eq_false_iff_ne, ne_eq]
          simp only [beq_iff_eq] at h2
          omega
        rw [hbeq, if_neg (show ¬ (false = true) by simp)] at this
        omega
      by_cases hlen : s.courses.length > 0
      · rw [if_pos hlen, incEnrolledMany]
        exact ⟨hCn, hDn, hKlen⟩
      · rw [if_neg hlen]
        have hnil : s.courses = [] := by
          cases hsc : s.courses
          · rfl
          · rw [hsc] at hlen; simp at hlen
        exact ⟨hCn, hDn, hKnil hnil⟩

/-- Membership in a filtered list of ids, as a Boolean equation. -/
theorem contains_filter_eq (l : List Nat) (p : Nat → Bool) (i : Nat) :
    (l.filter p).contains i = (l.contains i && p i) := by
  cases hl : l.contains i <;> cases hp1 : p i <;>
    cases hf : (l.filter p).contains i <;> simp_all

/-- Every error response of the class-change block is unsuccessful. -/
theorem classStage_inl (st : Store) (s : StudentDoc) (patch : StudentPatch) (r : Resp)
    (h : updateStudentClassStage st s patch = .inl r) : r.success = false := by
  unfold updateStudentClassStage at h
  repeat' first
    | split at h
    | dsimp only at h
  all_goals first
    | (simp only [Sum.inl.injEq] at h; rw [← h]; rfl)
    | exact absurd h (by simp)

/-- Every error response of the department-change block is unsuccessful. -/
theorem deptStage_inl (st : Store) (s : StudentDoc) (patch : StudentPatch) (r : Resp)
    (h : updateStudentDeptStage st s patch = .inl r) : r.success = false := by
  unfold updateStudentDeptStage at h
  repeat' first
    | split at h
    | dsimp only at h
  all_goals first
    | (simp only [Sum.inl.injEq] at h; rw [← h]; rfl)
    | exact absurd h (by simp)

/-- Every error response of the courses-change block is unsuccessful. -/
theorem coursesStage_inl (st : Store) (s : StudentDoc) (patch : StudentPatch) (r : Resp)
    (h : updateStudentCoursesStage st s patch = .inl r) : r.success = false := by
  unfold updateStudentCoursesStage at h
  repeat' first
    | split at h
    | dsimp only at h
  all_goals first
    | (simp only [Sum.inl.injEq] at h; rw [← h]; rfl)
    | exact absurd h (by simp)

/-- When the class-change block succeeds it only touches the classes
collection, adjusting strengths by the change of class reference. -/
theorem classStage_inr (st : Store) (s : StudentDoc) (patch : StudentPatch) (st1 : Store)
    (h : updateStudentClassStage st s patch = .inr st1) :
    st1.departments = st.departments ∧ st1.courses = st.courses ∧
    st1.students = st.students ∧
    ∀ x ∈ st1.classes, ∃ y ∈ st.classes, y.id = x.id ∧
      x.currentStrength = y.currentStrength
        + (if patch.classId.getD s.classId ≠ s.classId ∧
              x.id = patch.classId.getD s.classId then 1 else 0)
        - (if patch.classId.getD s.classId ≠ s.classId ∧
              x.id = s.classId then 1 else 0) := by
  unfold updateStudentClassStage at h
  cases hp : patch.classId with
  | none =>
    rw [hp] at h
    dsimp only at h
    injection h with h2
    subst h2
    refine ⟨rfl, rfl, rfl, ?_⟩
    intro x hx
    refine ⟨x, hx, rfl, ?_⟩
    simp
  | some c =>
    rw [hp] at h
    dsimp only at h
    simp only [Option.getD_some]
    by_cases hceq : (c == s.classId) = true
    · rw [if_pos hceq] at h
      injection h with h2
      subst h2
      have hc2 : c = s.classId := by simpa using hceq
      refine ⟨rfl, rfl, rfl, ?_⟩
      intro x hx
      refine ⟨x, hx, rfl, ?_⟩
      simp [hc2]
    · rw [if_neg hceq] at h
      have hcne : c ≠ s.classId := by simpa using hceq
      cases hnew : findClass st c with
      | none => rw [hnew] at h; exact absurd h (by simp)
      | some newClass =>
      rw [hnew] at h
      dsimp only at h
      have hnewid : newClass.id = c := by
        simpa using List.find?_some
          (show st.classes.find? (fun x => x.id == c) = some newClass from hnew)
      have hnewmem : newClass ∈ st.classes :=
        List.mem_of_find?_eq_some
          (show st.classes.find? (fun x => x.id == c) = some newClass from hnew)
      by_cases hfull : newClass.capacity ≤ newClass.currentStrength
      · rw [if_pos hfull] at h; exact absurd h (by simp)
      rw [if_neg hfull] at h
      cases hold : findClass st s.classId with
      | some oc =>
        rw [hold] at h
        dsimp only at h
        have hocid : oc.id = s.classId := by
          simpa using List.find?_some
            (show st.classes.find? (fun x => x.id == s.classId) = some oc from hold)
        have hocmem : oc ∈ st.classes :=
          List.mem_of_find?_eq_some
            (show st.classes.find? (fun x => x.id == s.classId) = some oc from hold)
        rw [saveClass] at h
        by_cases hocnn : (0:Int) ≤ oc.currentStrength - 1
        · rw [if_pos hocnn] at h
          dsimp only at h
          rw [saveClass] at h
          by_cases hncnn : (0:Int) ≤ newClass.currentStrength + 1
          · rw [if_pos hncnn] at h
            dsimp only at h
            injection h with h2
            subst h2
            refine ⟨rfl, rfl, rfl, ?_⟩
            intro x hx
            rcases mem_replace_cases (fun z : ClassDoc => z.id) hx with hxe | ⟨hx1, hxne⟩
            · subst hxe
              refine ⟨newClass, hnewmem, rfl, ?_⟩
              dsimp only
              rw [if_pos ⟨hcne, hnewid⟩,
                if_neg (show ¬ (c ≠ s.classId ∧ newClass.id = s.classId) by
                  rintro ⟨_, h2⟩; exact hcne (hnewid ▸ h2))]
              omega
            · have hxnid : x.id ≠ newClass.id := by
                simpa using hxne
              rcases mem_replace_cases (fun z : ClassDoc => z.id) hx1 with hxe2 | ⟨hx2, hxne2⟩
              · subst hxe2
                refine ⟨oc, hocmem, rfl, ?_⟩
                dsimp only
                rw [if_neg (show ¬ (c ≠ s.classId ∧ oc.id = c) by
                    rintro ⟨_, h2⟩; rw [hocid] at h2; exact hcne h2.symm),
                  if_pos ⟨hcne, hocid⟩]
                omega
              · have hxoid : x.id ≠ oc.id := by
                  simpa using hxne2
                refine ⟨x, hx2, rfl, ?_⟩
                rw [if_neg (show ¬ (c ≠ s.classId ∧ x.id = c) by
                    rintro ⟨_, h2⟩; exact hxnid (h2.trans hnewid.symm)),
                  if_neg (show ¬ (c ≠ s.classId ∧ x.id = s.classId) by
                    rintro ⟨_, h2⟩; exact hxoid (h2.trans hocid.symm))]
                omega
          · rw [if_neg hncnn] at h; exact absurd h (by simp)
        · rw [if_neg hocnn] at h; exact absurd h (by simp)
      | none =>
        rw [hold] at h
        dsimp only at h
        rw [saveClass] at h
        by_cases hncnn : (0:Int) ≤ newClass.currentStrength + 1
        · rw [if_pos hncnn] at h
          dsimp only at h
          injection h with h2
          subst h2
          refine ⟨rfl, rfl, rfl, ?_⟩
          intro x hx
          rcases mem_replace_cases (fun z : ClassDoc => z.id) hx with hxe | ⟨hx1, hxne⟩
          · subst hxe
            refine ⟨newClass, hnewmem, rfl, ?_⟩
            dsimp only
            rw [if_pos ⟨hcne, hnewid⟩,
              if_neg (show ¬ (c ≠ s.classId ∧ newClass.id = s.classId) by
                rintro ⟨_, h2⟩; exact hcne (hnewid ▸ h2))]
            omega
          · have hxnid : x.id ≠ newClass.id := by
              simpa using hxne
            refine ⟨x, hx1, rfl, ?_⟩
            rw [if_neg (show ¬ (c ≠ s.classId ∧ x.id = c) by
                rintro ⟨_, h2⟩; exact hxnid (h2.trans hnewid.symm)),
              if_neg (show ¬ (c ≠ s.classId ∧ x.id = s.classId) by
                rintro ⟨_, h2⟩
                have := List.find?_eq_none.1
                  (show st.classes.find? (fun z => z.id == s.classId) = none from hold) x hx1
                simp [h2] at this)]
            omega
        · rw [if_neg hncnn] at h; exact absurd h (by simp)

/-- When the department-change block succeeds it only touches the
departments collection, adjusting totals by the change of reference. -/
theorem deptStage_inr (st : Store) (s : StudentDoc) (patch : StudentPatch) (st1 : Store)
    (h : updateStudentDeptStage st s patch = .inr st1) :
    st1.classes = st.classes ∧ st1.courses = st.courses ∧
    st1.students = st.students ∧
    ∀ x ∈ st1.departments, ∃ y ∈ st.departments, y.id = x.id ∧
      x.totalStudents = y.totalStudents
        + (if patch.deptId.getD s.deptId ≠ s.deptId ∧
              x.id = patch.deptId.getD s.deptId then 1 else 0)
        - (if patch.deptId.getD s.deptId ≠ s.deptId ∧
              x.id = s.deptId then 1 else 0) := by
  unfold updateStudentDeptStage at h
  cases hp : patch.deptId with
  | none =>
    rw [hp] at h
    dsimp only at h
    injection h with h2
    subst h2
    refine ⟨rfl, rfl, rfl, ?_⟩
    intro x hx
    refine ⟨x, hx, rfl, ?_⟩
    simp
  | some c =>
    rw [hp] at h
    dsimp only at h
    simp only [Option.getD_some]
    by_cases hceq : (c == s.deptId) = true
    · rw [if_pos hceq] at h
      injection h with h2
      subst h2
      have hc2 : c = s.deptId := by simpa using hceq
      refine ⟨rfl, rfl, rfl, ?_⟩
      intro x hx
      refine ⟨x, hx, rfl, ?_⟩
      simp [hc2]
    · rw [if_neg hceq] at h
      have hcne : c ≠ s.deptId := by simpa using hceq
      cases hnew : findDept st c with
      | none => rw [hnew] at h; exact absurd h (by simp)
      | some newDept =>
      rw [hnew] at h
      dsimp only at h
      have hnewid : newDept.id = c := by
        simpa using List.find?_some
          (show st.departments.find? (fun x => x.id == c) = some newDept from hnew)
      have hnewmem : newDept ∈ st.departments :=
        List.mem_of_find?_eq_some
          (show st.departments.find? (fun x => x.id == c) = some newDept from hnew)
      cases hold : findDept st s.deptId with
      | some od =>
        rw [hold] at h
        dsimp only at h
        have hodid : od.id = s.deptId := by
          simpa using List.find?_some
            (show st.departments.find? (fun x => x.id == s.deptId) = some od from hold)
        have hodmem : od ∈ st.departments :=
          List.mem_of_find?_eq_some
            (show st.departments.find? (fun x => x.id == s.deptId) = some od from hold)
        rw [saveDept] at h
        by_cases hodnn : (0:Int) ≤ od.totalStudents - 1
        · rw [if_pos hodnn] at h
          dsimp only at h
          rw [saveDept] at h
          by_cases hncnn : (0:Int) ≤ newDept.totalStudents + 1
          · rw [if_pos hncnn] at h
            dsimp only at h
            injection h with h2
            subst h2
            refine ⟨rfl, rfl, rfl, ?_⟩
            intro x hx
            rcases mem_replace_cases (fun z : DeptDoc => z.id) hx with hxe | ⟨hx1, hxne⟩
            · subst hxe
              refine ⟨newDept, hnewmem, rfl, ?_⟩
              dsimp only
              rw [if_pos ⟨hcne, hnewid⟩,
                if_neg (show ¬ (c ≠ s.deptId ∧ newDept.id = s.deptId) by
                  rintro ⟨_, h2⟩; exact hcne (hnewid ▸ h2))]
              omega
            · have hxnid : x.id ≠ newDept.id := by
                simpa using hxne
              rcases mem_replace_cases (fun z : DeptDoc => z.id) hx1 with hxe2 | ⟨hx2, hxne2⟩
              · subst hxe2
                refine ⟨od, hodmem, rfl, ?_⟩
                dsimp only
                rw [if_neg (show ¬ (c ≠ s.deptId ∧ od.id = c) by
                    rintro ⟨_, h2⟩; rw [hodid] at h2; exact hcne h2.symm),
                  if_pos ⟨hcne, hodid⟩]
                omega
              · have hxoid : x.id ≠ od.id := by
                  simpa using hxne2
                refine ⟨x, hx2, rfl, ?_⟩
                rw [if_neg (show ¬ (c ≠ s.deptId ∧ x.id = c) by
                    rintro ⟨_, h2⟩; exact hxnid (h2.trans hnewid.symm)),
                  if_neg (show ¬ (c ≠ s.deptId ∧ x.id = s.deptId) by
                    rintro ⟨_, h2⟩; exact hxoid (h2.trans hodid.symm))]
                omega
          · rw [if_neg hncnn] at h; exact absurd h (by simp)
        · rw [if_neg hodnn] at h; exact absurd h (by simp)
      | none =>
        rw [hold] at h
        dsimp only at h
        rw [saveDept] at h
        by_cases hncnn : (0:Int) ≤ newDept.totalStudents + 1
        · rw [if_pos hncnn] at h
          dsimp only at h
          injection h with h2
          subst h2
          refine ⟨rfl, rfl, rfl, ?_⟩
          intro x hx
          rcases mem_replace_cases (fun z : DeptDoc => z.id) hx with hxe | ⟨hx1, hxne⟩
          · subst hxe
            refine ⟨newDept, hnewmem, rfl, ?_⟩
            dsimp only
            rw [if_pos ⟨hcne, hnewid⟩,
              if_neg (show ¬ (c ≠ s.deptId ∧ newDept.id = s.deptId) by
                rintro ⟨_, h2⟩; exact hcne (hnewid ▸ h2))]
            omega
          · have hxnid : x.id ≠ newDept.id := by
              simpa using hxne
            refine ⟨x, hx1, rfl, ?_⟩
            rw [if_neg (show ¬ (c ≠ s.deptId ∧ x.id = c) by
                rintro ⟨_, h2⟩; exact hxnid (h2.trans hnewid.symm)),
              if_neg (show ¬ (c ≠ s.deptId ∧ x.id = s.deptId) by
                rintro ⟨_, h2⟩
                have := List.find?_eq_none.1
                  (show st.departments.find? (fun z => z.id == s.deptId) = none from hold) x hx1
                simp [h2] at this)]
            omega
        · rw [if_neg hncnn] at h; exact absurd h (by simp)

/-- Documents of an updateMany image come from documents of the source
with the counter adjusted exactly when the id is in the update set. -/
theorem mem_incEnrolledMany (st : Store) (ids : List Nat) (d : Int) (x : CourseDoc)
    (hx : x ∈ (incEnrolledMany st ids d).courses) :
    ∃ y ∈ st.courses, y.id = x.id ∧
      x.enrolledStudents = y.enrolledStudents +
        (if ids.contains x.id = true then d else 0) := by
  dsimp only [incEnrolledMany] at hx
  obtain ⟨y, hy, hxy⟩ := List.mem_map.1 hx
  cases hc : ids.contains y.id with
  | true =>
    simp only [hc, if_pos] at hxy
    subst hxy
    refine ⟨y, hy, rfl, ?_⟩
    dsimp only
    rw [hc, if_pos rfl]
  | false =>
    simp only [hc] at hxy
    rw [if_neg (show ¬ (false = true) by simp)] at hxy
    subst hxy
    refine ⟨y, hy, rfl, ?_⟩
    rw [hc, if_neg (show ¬ (false = true) by simp)]
    omega

/-- Arithmetic of one increment and one decrement guarded by Booleans. -/
theorem ite_pm_arith (A B : Bool) (ex ey e1 : Int)
    (h1 : ex = e1 + (if (A && !B) = true then 1 else 0))
    (h2 : e1 = ey + (if (B && !A) = true then -1 else 0)) :
    ex = ey + (if A = true ∧ B = false then 1 else 0)
       - (if B = true ∧ A = false then 1 else 0) := by
  cases A <;> cases B <;> simp at h1 h2 ⊢ <;> omega

/-- Arithmetic of a guarded increment when no decrement applies. -/
theorem ite_p_arith (A B : Bool) (ex ey : Int)
    (h1 : ex = ey + (if (A && !B) = true then 1 else 0))
    (h0 : (B && !A) = false) :
    ex = ey + (if A = true ∧ B = false then 1 else 0)
       - (if B = true ∧ A = false then 1 else 0) := by
  cases A <;> cases B <;> simp_all

/-- Arithmetic of a guarded decrement when no increment applies. -/
theorem ite_m_arith (A B : Bool) (ex ey : Int)
    (h1 : ex = ey + (if (B && !A) = true then -1 else 0))
    (h0 : (A && !B) = false) :
    ex = ey + (if A = true ∧ B = false then 1 else 0)
       - (if B = true ∧ A = false then 1 else 0) := by
  cases A <;> cases B <;> simp_all
  omega

/-- Arithmetic of the unchanged counter when neither adjustment applies. -/
theorem ite_z_arith (A B : Bool) (ex : Int)
    (hadd0 : (A && !B) = false) (hrem0 : (B && !A) = false) :
    ex = ex + (if A = true ∧ B = false then 1 else 0)
       - (if B = true ∧ A = false then 1 else 0) := by
  cases A <;> cases B <;> simp_all

/-- When the courses-change block succeeds it only touches the courses
collection, adjusting enrolment by the removed and added course sets. -/
theorem coursesStage_inr (st : Store) (s : StudentDoc) (patch : StudentPatch) (st1 : Store)
    (h : updateStudentCoursesStage st s patch = .inr st1) :
    st1.classes = st.classes ∧ st1.departments = st.departments ∧
    st1.students = st.students ∧
    ∀ x ∈ st1.courses, ∃ y ∈ st.courses, y.id = x.id ∧
      x.enrolledStudents = y.enrolledStudents
        + (if (patch.courses.getD s.courses).contains x.id = true ∧
              s.courses.contains x.id = false then 1 else 0)
        - (if s.courses.contains x.id = true ∧
              (patch.courses.getD s.courses).contains x.id = false then 1 else 0) := by
  unfold updateStudentCoursesStage at h
  cases hp : patch.courses with
  | none =>
    rw [hp] at h
    dsimp only at h
    injection h with h2
    subst h2
    refine ⟨rfl, rfl, rfl, ?_⟩
    intro x hx
    refine ⟨x, hx, rfl, ?_⟩
    simp only [Option.getD_none]
    omega
  | some newCourses =>
    rw [hp] at h
    dsimp only at h
    simp only [Option.getD_some]
    split at h
    case isTrue hadd =>
      split at h
      case isTrue hrem =>
        split at h
        case isTrue hfull => exact absurd h (by simp)
        case isFalse hfull =>
          injection h with h2
          subst h2
          refine ⟨rfl, rfl, rfl, ?_⟩
          intro x hx
          obtain ⟨y1, hy1, hid1, he1⟩ := mem_incEnrolledMany _ _ _ x hx
          obtain ⟨y, hy, hid, he⟩ := mem_incEnrolledMany _ _ _ y1 hy1
          refine ⟨y, hy, hid.trans hid1, ?_⟩
          rw [hid1] at he
          have hTR := contains_filter_eq s.courses (fun c => !newCourses.contains c) x.id
          have hTA := contains_filter_eq newCourses (fun c => !s.courses.contains c) x.id
          rw [hTR] at he
          rw [hTA] at he1
          exact ite_pm_arith (newCourses.contains x.id) (s.courses.contains x.id)
            x.enrolledStudents y.enrolledStudents y1.enrolledStudents he1 he
      case isFalse hrem =>
        split at h
        case isTrue hfull => exact absurd h (by simp)
        case isFalse hfull =>
          injection h with h2
          subst h2
          refine ⟨rfl, rfl, rfl, ?_⟩
          have hremnil : s.courses.filter (fun c => !newCourses.contains c) = [] :=
            List.length_eq_zero.1 (by omega)
          intro x hx
          obtain ⟨y, hy, hid, he1⟩ := mem_incEnrolledMany _ _ _ x hx
          refine ⟨y, hy, hid, ?_⟩
          have hTR := contains_filter_eq s.courses (fun c => !newCourses.contains c) x.id
          have hTA := contains_filter_eq newCourses (fun c => !s.courses.contains c) x.id
          have hTRe : (s.courses.contains x.id && !newCourses.contains x.id) = false := by
            rw [← hTR, hremnil]; rfl
          rw [hTA] at he1
          exact ite_p_arith (newCourses.contains x.id) (s.courses.contains x.id)
            x.enrolledStudents y.enrolledStudents he1 hTRe
    case isFalse hadd =>
      injection h with h2
      subst h2
      have haddnil : newCourses.filter (fun c => !s.courses.contains c) = [] :=
        List.length_eq_zero.1 (by omega)
      by_cases hrem : (s.courses.filter (fun c => !newCourses.contains c)).length > 0
      · rw [if_pos hrem]
        refine ⟨rfl, rfl, rfl, ?_⟩
        intro x hx
        obtain ⟨y, hy, hid, he⟩ := mem_incEnrolledMany _ _ _ x hx
        refine ⟨y, hy, hid, ?_⟩
        have hTR := contains_filter_eq s.courses (fun c => !newCourses.contains c) x.id
        have hTA := contains_filter_eq newCourses (fun c => !s.courses.contains c) x.id
        have hTAe : (newCourses.contains x.id && !s.courses.contains x.id) = false := by
          rw [← hTA, haddnil]; rfl
        rw [hTR] at he
        exact ite_m_arith (newCourses.contains x.id) (s.courses.contains x.id)
          x.enrolledStudents y.enrolledStudents he hTAe
      · rw [if_neg hrem]
        refine ⟨rfl, rfl, rfl, ?_⟩
        have hremnil : s.courses.filter (fun c => !newCourses.contains c) = [] :=
          List.length_eq_zero.1 (by omega)
        intro x hx
        refine ⟨x, hx, rfl, ?_⟩
        have hTR := contains_filter_eq s.courses (fun c => !newCourses.contains c) x.id
        have hTA := contains_filter_eq newCourses (fun c => !s.courses.contains c) x.id
        have hTAe : (newCourses.contains x.id && !s.courses.contains x.id) = false := by
          rw [← hTA, haddnil]; rfl
        have hTRe : (s.courses.contains x.id && !newCourses.contains x.id) = false := by
          rw [← hTR, hremnil]; rfl
        exact ite_z_arith (newCourses.contains x.id) (s.courses.contains x.id)
          x.enrolledStudents hTAe hTRe

/-- A successful updateStudent keeps the three counter invariants: each
stage adjusts the counters exactly as the final student save demands. -/
theorem updateStudent_preserves (st : Store) (hwf : Store.WF st)
    (hcons : countersConsistent st) (sid : Nat) (p : StudentPatch)
    (hsucc : (updateStudent st sid p).1.success = true) :
    countersConsistent (updateStudent st sid p).2 := by
  obtain ⟨hndD, hndCl, hndK, hndS⟩ := hwf
  obtain ⟨hcls, hdep, hcrs⟩ := hcons
  unfold updateStudent at hsucc ⊢
  cases hs : findStudent st sid with
  | none => rw [hs] at hsucc; simp [Resp.success] at hsucc
  | some s =>
  rw [hs] at hsucc
  dsimp only at hsucc ⊢
  have hsB : st.students.find? (fun x => x.id == sid) = some s := hs
  have hsid : s.id = sid := by simpa using List.find?_some hsB
  split at hsucc
  case isTrue hed => simp [Resp.success] at hsucc
  case isFalse hed =>
  rw [if_neg hed]
  split at hsucc
  case isTrue hrd => simp [Resp.success] at hsucc
  case isFalse hrd =>
  rw [if_neg hrd]
  cases hc1 : updateStudentClassStage st s p with
  | inl r =>
    rw [hc1] at hsucc
    dsimp only at hsucc
    rw [classStage_inl st s p r hc1] at hsucc
    exact absurd hsucc (by simp)
  | inr st1 =>
  rw [hc1] at hsucc
  dsimp only at hsucc ⊢
  obtain ⟨hD1, hK1, hS1, hC1⟩ := classStage_inr st s p st1 hc1
  cases hc2 : updateStudentDeptStage st1 s p with
  | inl r =>
    rw [hc2] at hsucc
    dsimp only at hsucc
    rw [deptStage_inl st1 s p r hc2] at hsucc
    exact absurd hsucc (by simp)
  | inr st2 =>
  rw [hc2] at hsucc
  dsimp only at hsucc ⊢
  obtain ⟨hC2, hK2, hS2, hD2⟩ := deptStage_inr st1 s p st2 hc2
  cases hc3 : updateStudentCoursesStage st2 s p with
  | inl r =>
    rw [hc3] at hsucc
    dsimp only at hsucc
    rw [coursesStage_inl st2 s p r hc3] at hsucc
    exact absurd hsucc (by simp)
  | inr st3 =>
  clear hsucc
  obtain ⟨hC3, hD3, hS3, hK3⟩ := coursesStage_inr st2 s p st3 hc3
  dsimp only [saveStudent]
  have hfind : st.students.find? (fun x => x.id == (applyStudentPatch s p).id) = some s := by
    have hid : (applyStudentPatch s p).id = sid := hsid
    rw [hid]
    exact hsB
  refine ⟨?_, ?_, ?_⟩
  · -- classes
    intro c hc
    rw [hC3, hC2] at hc
    obtain ⟨y, hyS, hyid, heq⟩ := hC1 c hc
    have hy := hcls y hyS
    rw [hyid] at hy
    dsimp only [classRefs] at hy ⊢
    rw [hS3, hS2, hS1]
    have hcnt := countP_replace (fun x : StudentDoc => x.id) st.students
      ((applyStudentPatch s p).id) (applyStudentPatch s p) s
      (fun x => x.classId == c.id) hndS hfind
    dsimp only at hcnt
    have hnc : (applyStudentPatch s p).classId = p.classId.getD s.classId := rfl
    rw [hnc] at hcnt
    simp only [beq_iff_eq] at hcnt hy ⊢
    split_ifs at hcnt heq <;> omega
  · -- departments
    intro d hd
    rw [hD3] at hd
    obtain ⟨y, hyS, hyid, heq⟩ := hD2 d hd
    rw [hD1] at hyS
    have hy := hdep y hyS
    rw [hyid] at hy
    dsimp only [deptRefs] at hy ⊢
    rw [hS3, hS2, hS1]
    have hcnt := countP_replace (fun x : StudentDoc => x.id) st.students
      ((applyStudentPatch s p).id) (applyStudentPatch s p) s
      (fun x => x.deptId == d.id) hndS hfind
    dsimp only at hcnt
    have hnd : (applyStudentPatch s p).deptId = p.deptId.getD s.deptId := rfl
    rw [hnd] at hcnt
    simp only [beq_iff_eq] at hcnt hy ⊢
    split_ifs at hcnt heq <;> omega
  · -- courses
    intro k hk
    obtain ⟨y, hyS, hyid, heq⟩ := hK3 k hk
    rw [hK2, hK1] at hyS
    have hy := hcrs y hyS
    rw [hyid] at hy
    dsimp only [courseRefs] at hy ⊢
    rw [hS3, hS2, hS1]
    have hcnt := countP_replace (fun x : StudentDoc => x.id) st.students
      ((applyStudentPatch s p).id) (applyStudentPatch s p) s
      (fun x => x.courses.contains k.id) hndS hfind
    dsimp only at hcnt
    have hnk : (applyStudentPatch s p).courses = p.courses.getD s.courses := rfl
    rw [hnk] at hcnt
    cases hA : (p.courses.getD s.courses).contains k.id <;>
      cases hB : s.courses.contains k.id <;>
      simp only [hA, hB] at hcnt heq <;>
      simp at hcnt heq hy ⊢ <;>
      omega

/-- C1 (amended): on a well-formed store whose counters are consistent,
every successful single-document student operation (create, update,
delete) leaves the counters consistent. (Bulk create does not: see the
counterexample theorem.) -/
theorem counters_preserved_by_single_student_ops (st : Store) (hwf : Store.WF st)
    (hcons : countersConsistent st) :
    (∀ b, (createStudent st b).1.success = true →
      countersConsistent (createStudent st b).2) ∧
    (∀ sid patch, (updateStudent st sid patch).1.success = true →
      countersConsistent (updateStudent st sid patch).2) ∧
    (∀ sid, (deleteStudent st sid).1.success = true →
      countersConsistent (deleteStudent st sid).2) :=
  ⟨fun b h => createStudent_preserves st hcons b h,
   fun sid patch h => updateStudent_preserves st hwf hcons sid patch h,
   fun sid h => deleteStudent_preserves st hwf hcons sid h⟩

/-- C1 witness: the preservation theorem applied to a concrete consistent
store, for the delete operation. -/
theorem counters_preserved_by_single_student_ops_witness :
    Store.WF c1Store ∧ countersConsistent c1Store ∧
    countersConsistent (deleteStudent c1Store 1).2 :=
  ⟨by decide, by decide,
   (counters_preserved_by_single_student_ops c1Store (by decide)
     (by decide)).2.2 1 (by decide)⟩

end SMS
